import Mathlib

/-!
Verification development for the terra-lint value-resolution and inheritance
engine (resolver `resolveValue`/`resolveMetaRef`, registry
`getEffectiveObject`, and the PValue provenance model).

Modelling conventions, chosen once for the whole file:

* Paths are modelled with POSIX semantics (`path.sep = "/"`, `path.isAbsolute`
  is a leading slash, `path.resolve` against a root of `/`); all fixture paths
  are absolute, normalised POSIX paths.
* Byte ranges, line/column positions and the `lineCounter` of parsed documents
  are pure location metadata produced by an external YAML parser; no control
  flow of the resolver depends on them, so `range`/`fullRange` fields and the
  `range` field of diagnostics are omitted from the embedding.
* JavaScript numbers are modelled as exact scaled decimals
  (`mant / 10 ^ scale`); every numeric literal the properties below touch is a
  small integer, where this model agrees with IEEE doubles.
* The expression validator and the block-state validator are external
  collaborators consumed through a narrow contract
  (`validateExpression(text) -> isValid`); no property below depends on their
  verdict, so they are modelled as accepting every input (their only effect in
  the source is to append diagnostics whose codes never occur in the
  properties below).
* The filesystem is part of the pack state: a finite map from absolute path to
  the parse result of the file (`none` = unparseable), plus a symlink map used
  by `realpathSync` (identity by default).
* Recursion between `resolveValue`, `resolveMetaRef` and `resolveFromDoc` is
  not structural; it is embedded with a fuel parameter, `none` meaning the
  computation did not finish within the given fuel.  A run of the original
  program corresponds to the limit: it terminates on an input if and only if
  some fuel yields `some` here.
-/

namespace TerraLint

/-! ## JavaScript string primitives -/

/-- Character-list prefix test. -/
def listPrefixOf : List Char → List Char → Bool
  | [], _ => true
  | _ :: _, [] => false
  | a :: as, b :: bs => a = b ∧ listPrefixOf as bs

/-- Character-list infix test. -/
def listInfixOf (p : List Char) : List Char → Bool
  | [] => listPrefixOf p []
  | c :: t => listPrefixOf p (c :: t) ∨ listInfixOf p t

/-- JS `String.prototype.includes` (substring test). -/
def jsIncludes (s sub : String) : Bool :=
  listInfixOf sub.data s.data

/-- JS `String.prototype.startsWith`. -/
def jsStartsWith (s p : String) : Bool :=
  listPrefixOf p.data s.data

/-- JS `String.prototype.endsWith`. -/
def jsEndsWith (s p : String) : Bool :=
  listPrefixOf p.data.reverse s.data.reverse

/-- ASCII lower-casing of one character (JS `toLowerCase` on the character
sets appearing in this code base). -/
def lowerChar (c : Char) : Char :=
  if 65 ≤ c.toNat ∧ c.toNat ≤ 90 then Char.ofNat (c.toNat + 32) else c

/-- JS `String.prototype.toLowerCase` (ASCII). -/
def jsToLower (s : String) : String :=
  String.mk (s.data.map lowerChar)

/-- JS `String.prototype.toUpperCase` (ASCII). -/
def upperChar (c : Char) : Char :=
  if 97 ≤ c.toNat ∧ c.toNat ≤ 122 then Char.ofNat (c.toNat - 32) else c

/-- JS `String.prototype.toUpperCase` (ASCII). -/
def jsToUpper (s : String) : String :=
  String.mk (s.data.map upperChar)

/-- First index of a character, JS `indexOf`. -/
def listIndexOf (c : Char) : List Char → Option Nat
  | [] => none
  | x :: t => if x = c then some 0 else (listIndexOf c t).map (· + 1)

/-- JS `s.indexOf(c)` for a single character, `-1` becoming `none`. -/
def jsIndexOfChar (s : String) (c : Char) : Option Nat :=
  listIndexOf c s.data

/-- JS `s.substring(i)` (suffix from index `i`). -/
def jsDrop (s : String) (i : Nat) : String :=
  String.mk (s.data.drop i)

/-- JS `s.substring(0, i)` (prefix of length `i`). -/
def jsTake (s : String) (i : Nat) : String :=
  String.mk (s.data.take i)

/-- Number of occurrences of a character, JS `(s.match(/c/g) || []).length`. -/
def jsCountChar (s : String) (c : Char) : Nat :=
  (s.data.filter (· = c)).length

/-- The whitespace class of JS `String.prototype.trim` (restricted to the
characters that can occur in this code base). -/
def isJsWs (c : Char) : Bool :=
  c = ' ' ∨ c = '\t' ∨ c = '\n' ∨ c = '\r' ∨ c = '\x0b' ∨ c = '\x0c'

/-- JS `String.prototype.trim`. -/
def jsTrim (s : String) : String :=
  String.mk (((s.data.dropWhile isJsWs).reverse.dropWhile isJsWs).reverse)

/-- JS `s.replace(/\r?\n/g, ' ')`. -/
def collapseNewlinesAux : List Char → List Char
  | [] => []
  | '\r' :: '\n' :: t => ' ' :: collapseNewlinesAux t
  | '\n' :: t => ' ' :: collapseNewlinesAux t
  | c :: t => c :: collapseNewlinesAux t

/-- JS `s.replace(/\r?\n/g, ' ')`. -/
def collapseNewlines (s : String) : String :=
  String.mk (collapseNewlinesAux s.data)

/-- Replace every occurrence of one character by another,
JS `s.replace(/x/g, 'y')` for single characters. -/
def jsReplaceChar (s : String) (from_ to_ : Char) : String :=
  String.mk (s.data.map (fun c => if c = from_ then to_ else c))

/-- Split a character list on a separator character (every occurrence),
JS `s.split(c)`. -/
def splitCharAux (sep : Char) : List Char → List Char → List (List Char)
  | acc, [] => [acc.reverse]
  | acc, c :: t =>
    if c = sep then acc.reverse :: splitCharAux sep [] t
    else splitCharAux sep (c :: acc) t

/-- JS `s.split(c)` for a single-character separator. -/
def jsSplitChar (s : String) (sep : Char) : List String :=
  (splitCharAux sep [] s.data).map String.mk

/-- Concatenation with separator, JS `Array.prototype.join`. -/
def jsJoin (sep : String) : List String → String
  | [] => ""
  | [x] => x
  | x :: t => x ++ sep ++ jsJoin sep t

/-! ## JavaScript numbers as exact scaled decimals -/

/-- A JS number value `mant / 10 ^ scale`; every literal reached by the
properties below is integral (`scale = 0`), where this model is exact. -/
structure JsNumber where
  mant : Int
  scale : Nat
deriving DecidableEq, Repr

/-- Digits of a natural number, most significant first (fuel-structural so
that it reduces in the kernel). -/
def natDigitsAux : Nat → Nat → List Char → List Char
  | 0, _, acc => acc
  | fuel + 1, n, acc =>
    let d := Char.ofNat (48 + n % 10)
    if n < 10 then d :: acc else natDigitsAux fuel (n / 10) (d :: acc)

/-- Decimal rendering of a natural number. -/
def natToStr (n : Nat) : String :=
  String.mk (natDigitsAux (n + 1) n [])

/-- Decimal rendering of an integer, JS `String(n)` for integral numbers. -/
def intToStr (i : Int) : String :=
  if i < 0 then "-" ++ natToStr i.natAbs else natToStr i.natAbs

/-- JS `String(x)` for a number.  Non-integral values never reach
stringification in the properties below; exact IEEE float formatting is not
modelled, a scaled rendering is produced instead. -/
def jsNumToString (n : JsNumber) : String :=
  if n.scale = 0 then intToStr n.mant
  else intToStr n.mant ++ "e-" ++ natToStr n.scale

/-- Numeric value of a digit list (all characters assumed decimal digits). -/
def digitsVal : List Char → Nat → Nat
  | [], acc => acc
  | c :: t, acc => digitsVal t (acc * 10 + (c.toNat - 48))

/-- JS `Number(s)` on the character set produced by the resolver's numeric
regexes after underscore stripping (digits, one optional dot, one optional
exponent).  `none` models `NaN`; `Number('') = 0`. -/
def jsNumberParse (s : String) : Option JsNumber :=
  if s.data = [] then some ⟨0, 0⟩ else
  let isExpChar : Char → Bool := fun c => c = 'e' ∨ c = 'E'
  let mantChars := s.data.takeWhile (fun c => ¬ isExpChar c)
  let rest := s.data.dropWhile (fun c => ¬ isExpChar c)
  let intPart := mantChars.takeWhile (fun c => c ≠ '.')
  let afterDot := mantChars.dropWhile (fun c => c ≠ '.')
  let fracPart := afterDot.drop 1
  if ¬ (intPart.all Char.isDigit ∧ fracPart.all Char.isDigit ∧
        (intPart ≠ [] ∨ fracPart ≠ []) ∧
        (afterDot = [] ∨ afterDot.take 1 = ['.'])) then none
  else
    let mant : Int := Int.ofNat (digitsVal (intPart ++ fracPart) 0)
    let scale := fracPart.length
    match rest with
    | [] => some ⟨mant, scale⟩
    | _ :: expChars =>
      let (sign, digits) :=
        match expChars with
        | '+' :: t => (1, t)
        | '-' :: t => (-1, t)
        | t => ((1 : Int), t)
      if digits = [] ∨ ¬ digits.all Char.isDigit then none
      else
        let e : Int := sign * Int.ofNat (digitsVal digits 0)
        let se : Int := e - Int.ofNat scale
        if 0 ≤ se then some ⟨mant * 10 ^ se.toNat, 0⟩
        else some ⟨mant, se.natAbs⟩

/-! ## JavaScript `Map` / `Set` as insertion-ordered association lists -/

/-- `Map.prototype.get`. -/
def jsGet {α : Type} (m : List (String × α)) (k : String) : Option α :=
  match m with
  | [] => none
  | (k', v) :: t => if k' = k then some v else jsGet t k

/-- `Map.prototype.has`. -/
def jsHas {α : Type} (m : List (String × α)) (k : String) : Bool :=
  (jsGet m k).isSome

/-- `Map.prototype.set`: overwrite in place if present (keeping the first
insertion position), append otherwise. -/
def jsSet {α : Type} (m : List (String × α)) (k : String) (v : α) :
    List (String × α) :=
  match m with
  | [] => [(k, v)]
  | (k', v') :: t => if k' = k then (k, v) :: t else (k', v') :: jsSet t k v

/-- `Map.prototype.delete` (on the no-duplicate-keys maps used here). -/
def jsMapDelete {α : Type} (m : List (String × α)) (k : String) :
    List (String × α) :=
  m.filter (fun p => p.1 ≠ k)

/-- `Array.from(map.values())`. -/
def jsValues {α : Type} (m : List (String × α)) : List α :=
  m.map Prod.snd

/-- `new Map(pairs).values()`: deduplicate by key, keeping the first position
and the last value of each key. -/
def jsMapFromPairs {α : Type} (ps : List (String × α)) : List (String × α) :=
  ps.foldl (fun acc p => jsSet acc p.1 p.2) []

/-- `Set.prototype.has`. -/
def setHas (s : List String) (x : String) : Bool :=
  s.contains x

/-- `Set.prototype.add`. -/
def setAdd (s : List String) (x : String) : List String :=
  if setHas s x then s else s ++ [x]

/-- `Set.prototype.delete`. -/
def setDelete (s : List String) (x : String) : List String :=
  s.filter (fun y => y ≠ x)

/-! ## Node `path` module, POSIX model

All fixture paths are absolute normalised POSIX paths; `path.resolve` with a
single argument is modelled against a working directory of `/`. -/

/-- Split an absolute path into its non-empty segments. -/
def pathSegments (p : String) : List String :=
  (jsSplitChar p '/').filter (fun s => s ≠ "")

/-- Process `.` and `..` segments of an absolute path. -/
def normAbsSegs (segs : List String) : List String :=
  segs.foldl
    (fun acc s =>
      if s = "." then acc
      else if s = ".." then acc.dropLast
      else acc ++ [s]) []

/-- Rebuild a path string from segments (absolute). -/
def pathOfSegs (segs : List String) : String :=
  "/" ++ jsJoin "/" segs

/-- Node `path.isAbsolute` (POSIX). -/
def pathIsAbsolute (p : String) : Bool :=
  jsStartsWith p "/"

/-- Node `path.resolve(p)` (POSIX, working directory `/`). -/
def pathResolve (p : String) : String :=
  pathOfSegs (normAbsSegs (pathSegments p))

/-- Node `path.resolve(base, p)` (POSIX). -/
def pathResolve2 (base p : String) : String :=
  if pathIsAbsolute p then pathResolve p else pathResolve (base ++ "/" ++ p)

/-- Node `path.dirname` on a resolved absolute path. -/
def pathDirname (p : String) : String :=
  pathOfSegs ((pathSegments p).dropLast)

/-- Node `path.basename` on a resolved absolute path. -/
def pathBasename (p : String) : String :=
  ((pathSegments p).getLast?).getD ""

/-- Node `path.join` (always re-resolved by the callers in this code base). -/
def pathJoin (a b : String) : String :=
  pathResolve (a ++ "/" ++ b)

/-- Longest common prefix of two segment lists. -/
def commonPrefixLen : List String → List String → Nat
  | a :: as, b :: bs => if a = b then 1 + commonPrefixLen as bs else 0
  | _, _ => 0

/-- Node `path.relative(from, to)` on resolved absolute POSIX paths. -/
def pathRelative (fromP toP : String) : String :=
  let fs := normAbsSegs (pathSegments fromP)
  let ts := normAbsSegs (pathSegments toP)
  let k := commonPrefixLen fs ts
  let ups := List.replicate (fs.length - k) ".."
  jsJoin "/" (ups ++ ts.drop k)

/-- `isUnder` (src/unnamed/part_002 lines 154-171): containment check via
`path.relative`. -/
def isUnder (childPath parentPath : String) : Bool :=
  let rel := pathRelative (pathResolve parentPath) (pathResolve childPath)
  rel = "" ∨
    (¬ jsStartsWith rel (".." ++ "/") ∧ rel ≠ ".." ∧ ¬ pathIsAbsolute rel)

/-! ## PValue model (src/src/core/pvalue/types.ts) -/

/-- A raw JavaScript scalar value as held by a parsed YAML scalar node. -/
inductive JSVal where
  | str (s : String)
  | num (n : JsNumber)
  | boolV (b : Bool)
  | nullV
  | undef
deriving DecidableEq, Repr

/-- JS `String(x)` conversion. -/
def jsString : JSVal → String
  | .str s => s
  | .num n => jsNumToString n
  | .boolV b => if b then "true" else "false"
  | .nullV => "null"
  | .undef => "undefined"

/-- `AuthoringKind` of types.ts. -/
inductive AuthoringKind where
  | scalar
  | map
  | seq
deriving DecidableEq, Repr

/-- The `scalarType` component of `Origin.authoring`. -/
inductive ScalarType where
  | string
  | number
  | boolean
  | nullT
  | unknown
deriving DecidableEq, Repr

/-- The `typeof`-based scalar type capture of the resolver. -/
def scalarTypeOf : JSVal → ScalarType
  | .str _ => .string
  | .num _ => .number
  | .boolV _ => .boolean
  | .nullV => .nullT
  | .undef => .unknown

/-- Runtime values of `Origin.via`.  The *type* in types.ts enumerates only
`direct | meta | extends`; the resolver additionally assigns the sentinel
string `'meta-skipped'` at runtime, which is therefore a fourth constructor
here. -/
inductive Via where
  | direct
  | meta
  | extendsVia
  | metaSkipped
deriving DecidableEq, Repr

/-- `Origin.authoring` (byte ranges omitted, see the header). -/
structure Authoring where
  kind : AuthoringKind
  scalarType : Option ScalarType := none
  raw : Option String := none
deriving DecidableEq, Repr

/-- `Origin.metaSite` (byte ranges omitted). -/
structure MetaSite where
  file : String
  kind : AuthoringKind
  raw : Option String := none
deriving DecidableEq, Repr

/-- Per-value provenance (types.ts `Origin`; `range`/`fullRange` omitted). -/
structure Origin where
  file : String
  via : Option Via := none
  authoring : Option Authoring := none
  metaSite : Option MetaSite := none
deriving DecidableEq, Repr

/-- The resolved semantic value tree (types.ts `PValue`); map entries are an
insertion-ordered association list mirroring the JS `Map`. -/
inductive PValue where
  | scalar (value : JSVal) (origin : Origin)
  | seq (items : List PValue) (origin : Origin)
  | map (entries : List (String × PValue)) (origin : Origin)

/-- The `origin` field shared by all variants. -/
def PValue.origin : PValue → Origin
  | .scalar _ o => o
  | .seq _ o => o
  | .map _ o => o

/-- The `kind` discriminant as a string (as the source prints it). -/
def PValue.kindStr : PValue → String
  | .scalar _ _ => "scalar"
  | .seq _ _ => "seq"
  | .map _ _ => "map"

/-- types.ts `createPScalar`. -/
def createPScalar (value : JSVal) (origin : Origin) : PValue :=
  .scalar value origin

/-- types.ts `createPSeq`. -/
def createPSeq (items : List PValue) (origin : Origin) : PValue :=
  .seq items origin

/-- types.ts `createPMap`. -/
def createPMap (entries : List (String × PValue)) (origin : Origin) : PValue :=
  .map entries origin

/-- A plain JS tree as produced by types.ts `toJS`. -/
inductive JsTree where
  | prim (v : JSVal)
  | arr (items : List JsTree)
  | obj (entries : List (String × JsTree))
deriving Repr

mutual

/-- types.ts `toJS`: strip provenance to a bare nested structure. -/
def toJS : PValue → JsTree
  | .scalar v _ => .prim v
  | .seq items _ => .arr (toJSList items)
  | .map entries _ => .obj (toJSPairs entries)

/-- `toJS` mapped over sequence items. -/
def toJSList : List PValue → List JsTree
  | [] => []
  | v :: t => toJS v :: toJSList t

/-- `toJS` mapped over map entries. -/
def toJSPairs : List (String × PValue) → List (String × JsTree)
  | [] => []
  | (k, v) :: t => (k, toJS v) :: toJSPairs t

end

/-- types.ts `getValidationKind`: prefer the authoring kind when present. -/
def getValidationKind (v : PValue) : AuthoringKind :=
  match v.origin.authoring with
  | some a => a.kind
  | none =>
    match v with
    | .scalar _ _ => .scalar
    | .seq _ _ => .seq
    | .map _ _ => .map

/-- types.ts `isMetaDerived`: meta-ref resolution or MetaString result. -/
def isMetaDerived (v : PValue) : Bool :=
  v.origin.via = some Via.meta ∨ v.origin.metaSite ≠ none

/-- Minimal `JSON.stringify` for stripped trees (only the escapes that can
occur in this code base). -/
def jsonEscape (s : String) : String :=
  String.mk (s.data.foldr
    (fun c acc =>
      if c = '"' then '\\' :: '"' :: acc
      else if c = '\\' then '\\' :: '\\' :: acc
      else if c = '\n' then '\\' :: 'n' :: acc
      else c :: acc) [])

mutual

/-- Minimal `JSON.stringify` used by MetaString interpolation of non-scalar
values. -/
def jsonStringify : JsTree → String
  | .prim (.str s) => "\"" ++ jsonEscape s ++ "\""
  | .prim (.num n) => jsNumToString n
  | .prim (.boolV b) => if b then "true" else "false"
  | .prim .nullV => "null"
  | .prim .undef => "null"
  | .arr items => "[" ++ jsJoin "," (jsonStringifyList items) ++ "]"
  | .obj entries => "\x7b" ++ jsJoin "," (jsonStringifyPairs entries) ++ "\x7d"

/-- `jsonStringify` mapped over array items. -/
def jsonStringifyList : List JsTree → List String
  | [] => []
  | v :: t => jsonStringify v :: jsonStringifyList t

/-- `jsonStringify` mapped over object entries. -/
def jsonStringifyPairs : List (String × JsTree) → List String
  | [] => []
  | (k, v) :: t =>
    ("\"" ++ jsonEscape k ++ "\":" ++ jsonStringify v) :: jsonStringifyPairs t

end

/-! ## Parsed YAML documents (external parser contract, spec section 6) -/

/-- A raw parsed YAML node: scalar / map / sequence / alias.  Map keys are
arbitrary nodes as in the `yaml` library; the registry and resolver only ever
act on scalar keys. -/
inductive YNode where
  | scalar (value : JSVal)
  | ymap (items : List (YNode × YNode))
  | yseq (items : List YNode)
  | yalias (anchor : String)

/-- One parsed document: file path, root node, and the anchor table used to
resolve aliases (`alias.resolve(doc)`). -/
structure ParsedYaml where
  filePath : String
  contents : Option YNode := none
  anchors : List (String × YNode) := []

/-- `alias.resolve(doc)`: look the anchor up in the document. -/
def resolveAlias (doc : ParsedYaml) (anchor : String) : Option YNode :=
  jsGet doc.anchors anchor

/-- `YAMLMap.get(key, true)` for a string key: the value of the first pair
whose key is a scalar holding exactly that string. -/
def ymapGet (items : List (YNode × YNode)) (k : String) : Option YNode :=
  match items with
  | [] => none
  | (key, value) :: t =>
    match key with
    | .scalar (.str s) => if s = k then some value else ymapGet t k
    | _ => ymapGet t k

/-! ## Diagnostics and pack state (src/src/core/pack.ts) -/

/-- A diagnostic entry (`range` omitted, see the header). -/
structure Diagnostic where
  code : String
  message : String
  severity : String
  file : String
deriving DecidableEq, Repr

/-- pack.ts `ValidationRules`. -/
structure ValidationRules where
  expressionFields : List String
  blockStateFields : List String

/-- pack.ts `DEFAULT_RULES`. -/
def DEFAULT_RULES : ValidationRules :=
  { expressionFields :=
      [".slant", ".features.", "BEDROCK", "threshold", "multiplier", "base_y"],
    blockStateFields :=
      [".palette", "block", "material", "replace", "with"] }

/-- part_007 `ConfigObject`; `extends` is absent, a single id, or a list. -/
inductive ExtendsSpec where
  | one (id : String)
  | many (ids : List String)

/-- part_007 `ConfigObject`. -/
structure ConfigObject where
  type : String
  id : String
  extendsIds : Option ExtendsSpec := none
  parsedYaml : ParsedYaml
  node : YNode

/-- The pack state threaded through resolution: registry indexes,
diagnostics sink, the meta-reference in-flight set, and the filesystem model
(path to parse result; `none` = file exists but does not parse) with a
symlink map for `realpathSync` (identity where absent). -/
structure Pack where
  rootPath : String
  includePaths : List String := []
  allDocs : List (String × ParsedYaml) := []
  byType : List (String × List (String × ConfigObject)) := []
  diagnostics : List Diagnostic := []
  metaRefStack : List String := []
  rules : ValidationRules := DEFAULT_RULES
  fsFiles : List (String × Option ParsedYaml) := []
  symlinks : List (String × String) := []

/-- `fs.existsSync` over the modelled filesystem. -/
def fsExists (pack : Pack) (p : String) : Bool :=
  jsHas pack.fsFiles p

/-- `fs.realpathSync` over the modelled filesystem (identity by default). -/
def realpathSync (pack : Pack) (p : String) : String :=
  (jsGet pack.symlinks p).getD p

/-- Append one diagnostic (`pack.diagnostics.push`). -/
def pushDiag (pack : Pack) (d : Diagnostic) : Pack :=
  { pack with diagnostics := pack.diagnostics ++ [d] }

/-- pack.ts `Pack.isExpressionField`; `fieldName` is `none` when the field
path is empty (JS `undefined`). -/
def isExpressionField (pack : Pack) (pathStr : String)
    (fieldName : Option String) : Bool :=
  let excludedPaths :=
    ["id", "version", "author", "generator", "vanilla", "vanilla-generation",
     "addons", "preset-single-biome", "preset-single-debug-biome"]
  if jsStartsWith pathStr "addons." ||
      (match fieldName with
       | some f => excludedPaths.contains f
       | none => false) then false
  else
    pack.rules.expressionFields.any fun rule =>
      if jsStartsWith rule "." then
        jsEndsWith pathStr rule ∨ jsIncludes pathStr rule
      else
        match fieldName with
        | some f => f = rule
        | none => false

/-- pack.ts `Pack.isBlockField`; the JS guard `fieldName && ...` makes an
absent or empty field name falsy. -/
def isBlockField (pack : Pack) (pathStr : String)
    (fieldName : Option String) : Bool :=
  pack.rules.blockStateFields.any fun rule =>
    if jsStartsWith rule "." then jsIncludes pathStr rule
    else
      match fieldName with
      | some f => if f = "" then false else jsToLower f = jsToLower rule
      | none => false

/-! ## Resolver helpers (src/unnamed/part_002) -/

/-- JS `s.substring(a, b)` (argument swap when `a > b`, as in JS). -/
def jsSubstring (s : String) (a b : Nat) : String :=
  String.mk ((s.data.take (max a b)).drop (min a b))

/-- `s.split(c, 1)[0]`: the prefix before the first occurrence of `c`. -/
def jsTakeUntilChar (s : String) (c : Char) : String :=
  String.mk (s.data.takeWhile (fun x => x ≠ c))

/-- Concatenation-map preserving order (JS push loops over nested arrays). -/
def listConcatMap {α β : Type} (f : α → List β) : List α → List β
  | [] => []
  | x :: t => f x ++ listConcatMap f t

/-- `hasYamlExtension` (part_002 lines 92-96). -/
def hasYamlExtension (s : String) : Bool :=
  let t := jsToLower s
  jsEndsWith t ".yml" ∨ jsEndsWith t ".yaml"

/-- The three confidence levels of the meta-reference triage. -/
inductive MetaRefConfidence where
  | definitelyRef
  | probablyRef
  | unlikelyRef
deriving DecidableEq, Repr

/-- `getMetaRefConfidence` (part_002 lines 12-69). -/
def getMetaRefConfidence (s : String) : MetaRefConfidence :=
  if jsStartsWith s "$" then
    let ref1 := jsDrop s 1
    let ref :=
      if jsStartsWith ref1 "\x7b" ∧ jsEndsWith ref1 "\x7d" then
        jsSubstring ref1 1 (ref1.length - 1)
      else ref1
    if hasYamlExtension ref then .definitelyRef
    else if jsIncludes ref ":" then
      let lhs := jsTakeUntilChar ref ':'
      let lhsLower := jsToLower lhs
      if hasYamlExtension lhs ∨ lhsLower = "meta.yml" ∨ lhsLower = "meta.yaml" then
        .definitelyRef
      else if jsIncludes lhs "/" ∨ jsIncludes lhs "\\" then .probablyRef
      else .unlikelyRef
    else if jsToLower ref = "meta" then .probablyRef
    else if jsIncludes ref "/" ∨ jsIncludes ref "\\" then
      if jsEndsWith ref ".yml" ∨ jsEndsWith ref ".yaml" then .definitelyRef
      else .probablyRef
    else if jsIncludes ref "." then
      if jsIncludes ref "/" ∨ jsIncludes ref "\\" ∨ hasYamlExtension ref then
        .probablyRef
      else .unlikelyRef
    else .unlikelyRef
  else .unlikelyRef

/-- The slash-collapsing step of `normalizeFilePath`
(`replace(/\/+/g, '/')`). -/
def collapseSlashesAux : Bool → List Char → List Char
  | _, [] => []
  | prevSlash, '/' :: t =>
    if prevSlash then collapseSlashesAux true t
    else '/' :: collapseSlashesAux true t
  | _, c :: t => c :: collapseSlashesAux false t

/-- The `/./`-removal step of `normalizeFilePath`
(`replace(/\/\.\//g, '/')`, global left-to-right, non-overlapping). -/
def removeDotSegsAux : List Char → List Char
  | '/' :: '.' :: '/' :: t => '/' :: removeDotSegsAux t
  | c :: t => c :: removeDotSegsAux t
  | [] => []

/-- `normalizeFilePath` (part_002 lines 98-115). -/
def normalizeFilePath (filePath : String) : String :=
  let n1 := jsReplaceChar filePath '\\' '/'
  let n2 := String.mk (collapseSlashesAux false n1.data)
  let n3 := String.mk (removeDotSegsAux n2.data)
  if jsStartsWith n3 "./" then jsDrop n3 2 else n3

/-- `hasDirectoryTraversal` (part_002 lines 117-128). -/
def hasDirectoryTraversal (p : String) : Bool :=
  let norm := jsReplaceChar p '\\' '/'
  (jsSplitChar norm '/').any fun seg =>
    seg = ".." ∨ jsIncludes seg "\x00"

/-- `getSafeCandidatePath` (part_002 lines 130-152); the `try/catch` around
`realpathSync` is dead in the model since the modelled filesystem never
throws. -/
def getSafeCandidatePath (pack : Pack) (root filePath : String) :
    Option String :=
  let rootAbs := pathResolve root
  let candidate := pathResolve2 rootAbs filePath
  if ¬ isUnder candidate rootAbs then none
  else if ¬ fsExists pack candidate then some candidate
  else
    let rootReal := realpathSync pack rootAbs
    let candReal := realpathSync pack candidate
    if ¬ isUnder candReal rootReal then none else some candidate

/-- Result of `findInRegistry` / `attemptRegistryResolution`. -/
structure RegistryFindResult where
  docs : List ParsedYaml
  ambiguous : Bool

/-- The upward `meta.yml` walk of `findInRegistry` (part_002 lines 178-212),
fuelled by the directory depth (the loop strictly shortens the directory or
breaks, so the fuel used at the call site is always sufficient). -/
def findInRegistryMetaWalk (allDocs : List ParsedYaml) (canonical : String)
    (ownerRootAbs : String) : Nat → String → Option RegistryFindResult
  | 0, _ => none
  | fuel + 1, currentDir =>
    if ¬ isUnder currentDir ownerRootAbs then none
    else
      let localMetaPathAbs := pathResolve (pathJoin currentDir canonical)
      let matchingDocs := allDocs.filter fun d =>
        jsToLower (pathResolve d.filePath) = jsToLower localMetaPathAbs
      if ¬ matchingDocs.isEmpty then
        some { docs := matchingDocs, ambiguous := matchingDocs.length > 1 }
      else
        let parentDir := pathDirname currentDir
        if parentDir = currentDir then none
        else findInRegistryMetaWalk allDocs canonical ownerRootAbs fuel parentDir

/-- One lookup tier of `findInRegistry`: exact or suffix matching under a
list of roots. -/
def tierMatches (allDocs : List ParsedYaml) (normalizedSearch : String)
    (exact : Bool) (roots : List String) : List ParsedYaml :=
  listConcatMap
    (fun root =>
      let rootAbs := pathResolve root
      allDocs.filter fun d =>
        let dfp := pathResolve d.filePath
        if ¬ isUnder dfp rootAbs then false
        else
          let rel := pathRelative rootAbs dfp
          let nrel := jsToLower (jsReplaceChar rel '\\' '/')
          if exact then nrel = normalizedSearch
          else nrel = normalizedSearch ∨
            jsEndsWith nrel ("/" ++ normalizedSearch))
    roots

/-- Deduplicate one tier's matches by resolved path (part_002 line 250). -/
def dedupTier (tierResults : List ParsedYaml) : List ParsedYaml :=
  jsValues (jsMapFromPairs (tierResults.map fun d => (pathResolve d.filePath, d)))

/-- The tier loop of `findInRegistry` (part_002 lines 222-257): first
non-empty tier wins, ambiguity is more than one distinct match within it. -/
def findTiersLoop (allDocs : List ParsedYaml) (normalizedSearch : String) :
    List (Bool × List String) → RegistryFindResult
  | [] => { docs := [], ambiguous := false }
  | (exact, roots) :: rest =>
    let uniqueTierDocs := dedupTier (tierMatches allDocs normalizedSearch exact roots)
    if ¬ uniqueTierDocs.isEmpty then
      { docs := uniqueTierDocs, ambiguous := uniqueTierDocs.length > 1 }
    else findTiersLoop allDocs normalizedSearch rest

/-- The four lookup tiers (part_002 lines 215-220). -/
def lookupTiers (pack : Pack) : List (Bool × List String) :=
  [(true, [pack.rootPath]), (true, pack.includePaths),
   (false, [pack.rootPath]), (false, pack.includePaths)]

/-- `findInRegistry` (part_002 lines 173-260). -/
def findInRegistry (filePart : String) (pack : Pack)
    (currentFilePath : Option String) : RegistryFindResult :=
  let allDocs := jsValues pack.allDocs
  let normalizedSearch := jsToLower (jsReplaceChar filePart '\\' '/')
  let fpLower := jsToLower filePart
  let metaWalkHit :=
    match currentFilePath with
    | some cfp =>
      if cfp ≠ "" ∧ (fpLower = "meta.yml" ∨ fpLower = "meta.yaml") then
        let rootsToConsider := pack.rootPath :: pack.includePaths
        let currentFileAbs := pathResolve cfp
        match rootsToConsider.find? (fun root => isUnder currentFileAbs root) with
        | some ownerRoot =>
          let currentDir := pathDirname currentFileAbs
          let ownerRootAbs := pathResolve ownerRoot
          let canonicalFileName :=
            if fpLower = "meta.yml" then "meta.yml" else "meta.yaml"
          findInRegistryMetaWalk allDocs canonicalFileName ownerRootAbs
            ((pathSegments currentDir).length + 2) currentDir
        | none => none
      else none
    | none => none
  match metaWalkHit with
  | some r => r
  | none => findTiersLoop allDocs normalizedSearch (lookupTiers pack)

/-- The `/\.[^/\\]+$/` extension test of `attemptRegistryResolution`. -/
def hasExtAtEnd (s : String) : Bool :=
  let tail := (s.data.reverse.takeWhile (fun c => c ≠ '/' ∧ c ≠ '\\')).reverse
  tail.dropLast.contains '.'

/-- `attemptRegistryResolution` (part_002 lines 71-90). -/
def attemptRegistryResolution (filePart : String) (pack : Pack)
    (currentFilePath : Option String) : RegistryFindResult :=
  let result := findInRegistry filePart pack currentFilePath
  if ¬ result.docs.isEmpty ∨ result.ambiguous then result
  else if ¬ hasExtAtEnd filePart then
    let r1 := findInRegistry (filePart ++ ".yml") pack currentFilePath
    if ¬ r1.docs.isEmpty ∨ r1.ambiguous then r1
    else
      let r2 := findInRegistry (filePart ++ ".yaml") pack currentFilePath
      if ¬ r2.docs.isEmpty ∨ r2.ambiguous then r2
      else { docs := [], ambiguous := false }
  else { docs := [], ambiguous := false }

/-- Parsed shape of a meta-reference candidate. -/
structure MetaRefParse where
  filePart : String
  pathInFile : List String
  hasColon : Bool
  looksWindowsAbs : Bool
  hasMultipleColons : Bool
deriving DecidableEq, Repr

/-- The `/^[A-Za-z]:[\\/]/` Windows-drive test of `parseMetaRefCandidate`. -/
def looksWindowsAbsTest (s : String) : Bool :=
  match s.data with
  | c0 :: ':' :: c2 :: _ => c0.isAlpha ∧ (c2 = '\\' ∨ c2 = '/')
  | _ => false

/-- `parseMetaRefCandidate` (part_002 lines 262-306). -/
def parseMetaRefCandidate (raw : String) : Option MetaRefParse :=
  if ¬ jsStartsWith raw "$" then none
  else
    let p0 := jsDrop raw 1
    let pathStr :=
      if jsStartsWith p0 "\x7b" ∧ jsEndsWith p0 "\x7d" then
        jsSubstring p0 1 (p0.length - 1)
      else p0
    if looksWindowsAbsTest pathStr then
      some { filePart := pathStr, pathInFile := [], hasColon := false,
             looksWindowsAbs := true, hasMultipleColons := false }
    else
      let colonCount := jsCountChar pathStr ':'
      let multi := colonCount > 1
      match jsIndexOfChar pathStr ':' with
      | none =>
        some { filePart := pathStr, pathInFile := [], hasColon := false,
               looksWindowsAbs := false, hasMultipleColons := multi }
      | some i =>
        let filePath := jsTake pathStr i
        let remainingPath := jsDrop pathStr (i + 1)
        let pathInFile :=
          if remainingPath = "" then [] else jsSplitChar remainingPath '.'
        some { filePart := filePath, pathInFile := pathInFile, hasColon := true,
               looksWindowsAbs := false, hasMultipleColons := multi }

/-- `markAsMetaDerived` (part_002 lines 1256-1277): rewrap with `via='meta'`
and the referencing site, keeping the target's own authoring. -/
def markAsMetaDerived (pvalue : PValue) (metaSiteFile : String)
    (metaSiteRaw : Option String) (metaSiteKind : Option AuthoringKind) :
    PValue :=
  let site : MetaSite :=
    { file := metaSiteFile, kind := metaSiteKind.getD .scalar,
      raw := metaSiteRaw }
  let metaOrigin :=
    { pvalue.origin with via := some Via.meta, metaSite := some site }
  match pvalue with
  | .scalar v _ => .scalar v metaOrigin
  | .seq i _ => .seq i metaOrigin
  | .map e _ => .map e metaOrigin

/-! ## Registry indexing (src/unnamed/part_007) -/

/-- `Registry.addParsedDoc` (part_007 lines 19-71), acting on the pack-level
registry state. -/
def addParsedDoc (pack : Pack) (doc : ParsedYaml) : Pack :=
  let pack := { pack with allDocs := jsSet pack.allDocs doc.filePath doc }
  match doc.contents with
  | some (YNode.ymap items) =>
    match ymapGet items "type", ymapGet items "id" with
    | some (YNode.scalar tv), some (YNode.scalar iv) =>
      let typeStr := jsToUpper (jsString tv)
      let idStr := jsString iv
      let idKey := jsToUpper idStr
      let typeMap := (jsGet pack.byType typeStr).getD []
      let pack :=
        match jsGet typeMap idKey with
        | some existing =>
          pushDiag pack
            { code := "DUPLICATE_ID",
              message := "Duplicate ID \"" ++ idStr ++ "\" for type \"" ++
                typeStr ++ "\". Already defined in " ++
                existing.parsedYaml.filePath,
              severity := "error", file := doc.filePath }
        | none => pack
      let extendsIds :=
        match ymapGet items "extends" with
        | some (YNode.scalar ev) => some (ExtendsSpec.one (jsString ev))
        | some (YNode.yseq eitems) =>
          some (ExtendsSpec.many
            (((eitems.filterMap fun it =>
                match it with
                | YNode.scalar v => some (jsString v)
                | _ => none)).filter fun s => s ≠ ""))
        | some _ => none
        | none => none
      let obj : ConfigObject :=
        { type := typeStr, id := idStr, extendsIds := extendsIds,
          parsedYaml := doc, node := YNode.ymap items }
      { pack with byType := jsSet pack.byType typeStr (jsSet typeMap idKey obj) }
    | _, _ => pack
  | _ => pack

/-- `Registry.getObject` (part_007 lines 78-80). -/
def getObject (pack : Pack) (type id : String) : Option ConfigObject :=
  match jsGet pack.byType (jsToUpper type) with
  | some typeMap => jsGet typeMap (jsToUpper id)
  | none => none

/-- `Registry.getObjectsByType` (part_007 lines 73-76). -/
def getObjectsByType (pack : Pack) (type : String) : List ConfigObject :=
  match jsGet pack.byType (jsToUpper type) with
  | some typeMap => jsValues typeMap
  | none => []

/-! ## Resolver core (src/unnamed/part_002 `resolveValue` / `resolveMetaRef`)

The mutual recursion between `resolveValue`, `resolveMetaRef` and
`resolveFromDoc` is tied with `mkResolvers` below: each function receives the
record of the three functions one fuel level down and the knot is closed by
recursion on the fuel. -/

/-- The record of the three mutually recursive resolver entry points.
`rv node pack parentDoc fieldPath aliasDepth`;
`rmr ref pack parentDoc siteKind metaSiteRaw` (the site kind is the
`node?.kind || 'scalar'` of the source, computed at each call site);
`rfd doc pathInFile pack` returning the source's
`{success, result?, error?}` as `Except`. -/
structure Resolvers where
  rv : Option YNode → Pack → ParsedYaml → List String → Nat →
    Option (PValue × Pack)
  rmr : String → Pack → ParsedYaml → AuthoringKind → Option String →
    Option (PValue × Pack)
  rfd : ParsedYaml → List String → Pack → Option (Except String PValue × Pack)

/-- The authoring capture of `resolveValue` (part_002 lines 361-377);
aliases are resolved before this point. -/
def authoringOf : YNode → Option Authoring
  | .scalar v =>
    some { kind := .scalar, scalarType := some (scalarTypeOf v),
           raw := some (jsString v) }
  | .ymap _ => some { kind := .map }
  | .yseq _ => some { kind := .seq }
  | .yalias _ => none

/-- A digit or underscore (the `[\d_]` class of the numeric regexes). -/
def digitU (c : Char) : Bool :=
  c.isDigit ∨ c = '_'

/-- The optional exponent tail `([eE][+-]?[\d_]+)?$`. -/
def numericExpTail : List Char → Bool
  | [] => true
  | c :: rest =>
    if c = 'e' ∨ c = 'E' then
      let rest' :=
        match rest with
        | '+' :: t => t
        | '-' :: t => t
        | t => t
      ¬ rest'.isEmpty ∧ rest'.all digitU
    else false

/-- The numeric-underscore literal regex
`/^[\d_]+(\.[\d_]+)?([eE][+-]?[\d_]+)?$/` of the resolver. -/
def numericUnderscoreLit (s : String) : Bool :=
  let l := s.data
  let intPart := l.takeWhile digitU
  let r1 := l.drop intPart.length
  if intPart.isEmpty then false
  else
    match r1 with
    | '.' :: rest =>
      let f := rest.takeWhile digitU
      ¬ f.isEmpty ∧ numericExpTail (rest.drop f.length)
    | r => numericExpTail r

/-- `s.replace(/_/g, '')`. -/
def stripUnderscores (s : String) : String :=
  String.mk (s.data.filter (fun c => c ≠ '_'))

/-- Scan a scalar into literal runs (`Sum.inl`) and `${...}` span contents
(`Sum.inr`), reproducing the global-regex loop `/\${([^}]+)}/g` of the
MetaString pass (fuelled by the string length; each step consumes at least
one character). -/
def scanMetaSpans : Nat → List Char → List (Sum (List Char) (List Char))
  | 0, _ => []
  | _ + 1, [] => []
  | fuel + 1, '$' :: '\x7b' :: rest =>
    let content := rest.takeWhile (fun c => c ≠ '\x7d')
    let after := rest.drop content.length
    match after with
    | '\x7d' :: t =>
      if content.isEmpty then
        Sum.inl ['$'] :: scanMetaSpans fuel ('\x7b' :: after)
      else Sum.inr content :: scanMetaSpans fuel t
    | _ => [Sum.inl ('$' :: '\x7b' :: rest)]
  | fuel + 1, c :: t => Sum.inl [c] :: scanMetaSpans fuel t

/-- The per-span body of the MetaString interpolation loop (part_002 lines
401-465), threading the output string, the `didResolveAny` flag and the pack
state. -/
def interpChunksGo (r : Resolvers) (parentDoc : ParsedYaml) :
    List (Sum (List Char) (List Char)) → Pack → String → Bool →
    Option (String × Bool × Pack)
  | [], pack, out, did => some (out, did, pack)
  | Sum.inl lit :: rest, pack, out, did =>
    interpChunksGo r parentDoc rest pack (out ++ String.mk lit) did
  | Sum.inr content :: rest, pack, out, did =>
    let ref := jsTrim (String.mk content)
    let rawRef := if jsStartsWith ref "$" then ref else "$" ++ ref
    let metaSiteRaw := "$\x7b" ++ ref ++ "\x7d"
    if getMetaRefConfidence rawRef = .unlikelyRef then
      let pack' :=
        if jsIncludes ref "/" ∨ jsIncludes ref "." ∨
            jsIncludes (jsToLower ref) "meta" then
          pushDiag pack
            { code := "META_STRING_NON_FILE_REF",
              message := "MetaString reference \"" ++ ref ++
                "\" doesn't look like a file/path reference and was not resolved.",
              severity := "warning", file := parentDoc.filePath }
        else pack
      interpChunksGo r parentDoc rest pack'
        (out ++ "$\x7b" ++ ref ++ "\x7d") did
    else
      match r.rmr rawRef pack parentDoc .scalar (some metaSiteRaw) with
      | none => none
      | some (resolved, pack') =>
        match resolved with
        | .scalar v o =>
          if o.via = some Via.metaSkipped then
            interpChunksGo r parentDoc rest pack'
              (out ++ "$\x7b" ++ ref ++ "\x7d") did
          else interpChunksGo r parentDoc rest pack' (out ++ jsString v) true
        | other =>
          if other.origin.via = some Via.metaSkipped then
            interpChunksGo r parentDoc rest pack'
              (out ++ "$\x7b" ++ ref ++ "\x7d") did
          else
            interpChunksGo r parentDoc rest
              (pushDiag pack'
                { code := "META_STRING_NON_SCALAR",
                  message := "MetaString interpolation of non-scalar value (" ++
                    other.kindStr ++ "). Consider using a scalar value.",
                  severity := "warning", file := parentDoc.filePath })
              (out ++ jsonStringify (toJS other)) true

/-- Replace a PValue's origin (`{...resolved, origin}` spreads). -/
def withOrigin (p : PValue) (o : Origin) : PValue :=
  match p with
  | .scalar v _ => .scalar v o
  | .seq i _ => .seq i o
  | .map e _ => .map e o

/-- The MetaString scalar branch of `resolveValue` (part_002 lines 394-543).
The expression-validation block on the interpolated result (lines 472-498)
only appends diagnostics from the external expression validator, modelled as
accepting, and is therefore a no-op here. -/
def resolveInterpolatedScalar (r : Resolvers) (parentDoc : ParsedYaml)
    (origin : Origin) (nodeVal : JSVal) (val : String) (pack : Pack) :
    Option (PValue × Pack) :=
  match interpChunksGo r parentDoc
      (scanMetaSpans (val.length + 1) val.data) pack "" false with
  | none => none
  | some (out, did, pack') =>
    if did then
      let interpolatedVal := jsTrim (collapseNewlines out)
      let metaSite : MetaSite :=
        { file := parentDoc.filePath, kind := .scalar,
          raw := some (jsString nodeVal) }
      let metaStringOrigin : Origin :=
        { origin with
          via := some Via.meta
          metaSite := some metaSite
          authoring := some { kind := .scalar, scalarType := some .string,
                              raw := some interpolatedVal } }
      if numericUnderscoreLit interpolatedVal then
        match jsNumberParse (stripUnderscores interpolatedVal) with
        | some n =>
          some (createPScalar (.num n)
            { metaStringOrigin with
              authoring := some { kind := .scalar, scalarType := some .number,
                                  raw := some interpolatedVal } }, pack')
        | none =>
          some (createPScalar (.str interpolatedVal) metaStringOrigin, pack')
      else some (createPScalar (.str interpolatedVal) metaStringOrigin, pack')
    else some (createPScalar nodeVal origin, pack')

/-- Collect the merge sources of one `<<` entry whose value is a sequence
(part_002 lines 659-687). -/
def mergeSeqItems (r : Resolvers) (parentDoc : ParsedYaml)
    (fieldPath : List String) (aliasDepth : Nat) :
    List YNode → Pack → List PValue → Option (List PValue × Pack)
  | [], pack, ms => some (ms, pack)
  | item :: rest, pack, ms =>
    match item with
    | .scalar v =>
      let itemVal := jsString v
      let refCandidate := if jsStartsWith itemVal "$" then itemVal
                          else "$" ++ itemVal
      if getMetaRefConfidence refCandidate ≠ .unlikelyRef then
        match r.rmr refCandidate pack parentDoc .scalar none with
        | none => none
        | some (src, pack') =>
          mergeSeqItems r parentDoc fieldPath aliasDepth rest pack' (ms ++ [src])
      else
        mergeSeqItems r parentDoc fieldPath aliasDepth rest
          (pushDiag pack
            { code := "META_MERGE_NOT_A_MAP",
              message := "Cannot merge \"" ++ itemVal ++
                "\" into a map. Expected a map reference like \"path.yml:key\".",
              severity := "error", file := parentDoc.filePath }) ms
    | other =>
      match r.rv (some other) pack parentDoc fieldPath aliasDepth with
      | none => none
      | some (src, pack') =>
        mergeSeqItems r parentDoc fieldPath aliasDepth rest pack' (ms ++ [src])

/-- Pass 1 of the map branch (part_002 lines 643-722): partition entries into
merge sources (resolving them as encountered) and local pairs; non-scalar
keys are skipped. -/
def mapPass1 (r : Resolvers) (parentDoc : ParsedYaml)
    (fieldPath : List String) (aliasDepth : Nat) :
    List (YNode × YNode) → Pack → List PValue → List (String × YNode) →
    Option (List PValue × List (String × YNode) × Pack)
  | [], pack, ms, lp => some (ms, lp, pack)
  | (key, value) :: rest, pack, ms, lp =>
    match key with
    | .scalar kv =>
      let keyStr := jsString kv
      if keyStr = "<<" then
        let mergeValue : Option YNode :=
          match value with
          | .yalias a => resolveAlias parentDoc a
          | v => some v
        match mergeValue with
        | some (.yseq seqItems) =>
          match mergeSeqItems r parentDoc fieldPath aliasDepth seqItems pack ms with
          | none => none
          | some (ms', pack') =>
            mapPass1 r parentDoc fieldPath aliasDepth rest pack' ms' lp
        | some (.scalar v) =>
          let valueVal := jsString v
          let refCandidate := if jsStartsWith valueVal "$" then valueVal
                              else "$" ++ valueVal
          if getMetaRefConfidence refCandidate ≠ .unlikelyRef then
            match r.rmr refCandidate pack parentDoc .scalar none with
            | none => none
            | some (src, pack') =>
              mapPass1 r parentDoc fieldPath aliasDepth rest pack' (ms ++ [src]) lp
          else
            mapPass1 r parentDoc fieldPath aliasDepth rest
              (pushDiag pack
                { code := "META_MERGE_NOT_A_MAP",
                  message := "Cannot merge a scalar into a map. Expected a map or meta-reference.",
                  severity := "error", file := parentDoc.filePath }) ms lp
        | mv =>
          match r.rv mv pack parentDoc fieldPath aliasDepth with
          | none => none
          | some (src, pack') =>
            mapPass1 r parentDoc fieldPath aliasDepth rest pack' (ms ++ [src]) lp
      else mapPass1 r parentDoc fieldPath aliasDepth rest pack ms (lp ++ [(keyStr, value)])
    | _ => mapPass1 r parentDoc fieldPath aliasDepth rest pack ms lp

/-- Pass 2 of the map branch (part_002 lines 724-748): apply merge-source
maps as defaults, a key only if not already present; non-map sources emit
`META_MERGE_NOT_A_MAP` and are skipped. -/
def applyMergeSources :
    List PValue → List (String × PValue) → Pack → String →
    List (String × PValue) × Pack
  | [], entries, pack, _ => (entries, pack)
  | m :: rest, entries, pack, file =>
    match m with
    | .map mEntries _ =>
      let entries' := mEntries.foldl
        (fun acc kv => if jsHas acc kv.1 then acc else jsSet acc kv.1 kv.2)
        entries
      applyMergeSources rest entries' pack file
    | other =>
      applyMergeSources rest entries
        (pushDiag pack
          { code := "META_MERGE_NOT_A_MAP",
            message := "Cannot merge a " ++ other.kindStr ++ " into a map.",
            severity := "error", file := file }) file

/-- Pass 3 of the map branch (part_002 lines 750-754): resolve local pairs in
order, always overwriting. -/
def applyLocalPairs (r : Resolvers) (parentDoc : ParsedYaml)
    (fieldPath : List String) (aliasDepth : Nat) :
    List (String × YNode) → List (String × PValue) → Pack →
    Option (List (String × PValue) × Pack)
  | [], entries, pack => some (entries, pack)
  | (keyStr, value) :: rest, entries, pack =>
    match r.rv (some value) pack parentDoc (fieldPath ++ [keyStr]) aliasDepth with
    | none => none
    | some (resolved, pack') =>
      applyLocalPairs r parentDoc fieldPath aliasDepth rest
        (jsSet entries keyStr resolved) pack'

/-- The sequence branch of `resolveValue` (part_002 lines 759-832): splice
markers (`<< ref` scalars and single-key `<<` maps) splice resolved sequence
items inline; everything else resolves in order under a `[]` path segment. -/
def seqItemsGo (r : Resolvers) (parentDoc : ParsedYaml)
    (fieldPath : List String) (aliasDepth : Nat) :
    List YNode → Pack → List PValue → Option (List PValue × Pack)
  | [], pack, acc => some (acc, pack)
  | item :: rest, pack, acc =>
    let normal : Pack → Option (List PValue × Pack) := fun pk =>
      match r.rv (some item) pk parentDoc (fieldPath ++ ["[]"]) aliasDepth with
      | none => none
      | some (pv, pack') => seqItemsGo r parentDoc fieldPath aliasDepth rest pack' (acc ++ [pv])
    match item with
    | .scalar v =>
      let sv := jsString v
      if jsStartsWith sv "<< " then
        let refPart := jsTrim (jsDrop sv 3)
        let raw := if jsStartsWith refPart "$" then refPart else "$" ++ refPart
        match r.rmr raw pack parentDoc .seq none with
        | none => none
        | some (resolved, pack') =>
          match resolved with
          | .seq its _ =>
            seqItemsGo r parentDoc fieldPath aliasDepth rest pack' (acc ++ its)
          | other =>
            seqItemsGo r parentDoc fieldPath aliasDepth rest
              (pushDiag pack'
                { code := "META_SPLICE_NOT_A_LIST",
                  message := "Meta-splice target is not a list (got " ++
                    other.kindStr ++ ")",
                  severity := "error", file := parentDoc.filePath }) acc
      else normal pack
    | .ymap mitems =>
      match mitems with
      | [(.scalar (.str "<<"), valNode)] =>
        let step : Option (PValue × Pack) :=
          match valNode with
          | .scalar v =>
            let vs := jsString v
            let ref := if jsStartsWith vs "$" then vs else "$" ++ vs
            r.rmr ref pack parentDoc .map none
          | other => r.rv (some other) pack parentDoc fieldPath aliasDepth
        match step with
        | none => none
        | some (resolved, pack') =>
          match resolved with
          | .seq its _ =>
            seqItemsGo r parentDoc fieldPath aliasDepth rest pack' (acc ++ its)
          | other =>
            seqItemsGo r parentDoc fieldPath aliasDepth rest
              (pushDiag pack'
                { code := "META_LIST_MERGE_NOT_A_LIST",
                  message := "Cannot merge a " ++ other.kindStr ++ " into a list.",
                  severity := "error", file := parentDoc.filePath }) acc
      | _ => normal pack
    | _ => normal pack

/-! ## Filesystem fallback (part_002 lines 1304-1531) -/

/-- The upward walk of `findParentMetaFiles` (part_002 lines 1323-1356),
fuelled by directory depth (each iteration strips one directory segment or
stops, so the call-site fuel is always sufficient). -/
def fpmWalk (pack0 : Pack) (canonical ownerRoot : String) :
    Nat → String → List ParsedYaml → Pack → List ParsedYaml × Pack
  | 0, _, acc, pack => (acc, pack)
  | fuel + 1, searchDir, acc, pack =>
    let ownerRootAbs := pathResolve ownerRoot
    if ¬ isUnder searchDir ownerRootAbs then (acc, pack)
    else
      let metaPathAbs := pathResolve (pathJoin searchDir canonical)
      let step : List ParsedYaml × Pack :=
        if fsExists pack metaPathAbs ∧
            (jsEndsWith (jsToLower metaPathAbs) ".yml" ∨
             jsEndsWith (jsToLower metaPathAbs) ".yaml") then
          let rootReal := realpathSync pack ownerRootAbs
          let candReal := realpathSync pack metaPathAbs
          if ¬ isUnder candReal rootReal then (acc, pack)
          else
            match jsGet pack.fsFiles metaPathAbs with
            | some (some parsed) => (acc ++ [parsed], addParsedDoc pack parsed)
            | _ => (acc, pack)
        else (acc, pack)
      let parentDir := pathDirname searchDir
      if parentDir = searchDir then step
      else fpmWalk pack0 canonical ownerRoot fuel parentDir step.1 step.2

/-- `findParentMetaFiles` (part_002 lines 1304-1359). -/
def findParentMetaFiles (filePath : String) (pack : Pack)
    (parentDoc : ParsedYaml) : List ParsedYaml × Pack :=
  let fpl := jsToLower filePath
  if ¬ (fpl = "meta.yml" ∨ fpl = "meta.yaml") then ([], pack)
  else
    let currentFileAbs := pathResolve parentDoc.filePath
    let currentDir := pathDirname currentFileAbs
    let roots := pack.rootPath :: pack.includePaths
    match roots.find? (fun root => isUnder currentFileAbs root) with
    | none => ([], pack)
    | some ownerRoot =>
      let start := pathDirname currentDir
      fpmWalk pack fpl ownerRoot ((pathSegments start).length + 2) start [] pack

/-- Result of `tryFilesystemFallback`. -/
inductive FsFallbackResult where
  | found (doc : ParsedYaml)
  | ambiguous (candidates : List String)
  | missing

/-- Candidate display names for filesystem matches (part_002 lines
1466-1476). -/
def fsCandidateDisplay (pack : Pack) (p root : String) : String :=
  if root = pack.rootPath then pathRelative pack.rootPath p
  else "include(" ++ pathBasename root ++ ")/" ++ pathRelative root p

/-- Display name for an unparseable file found by the generic scan (part_002
lines 1494-1500). -/
def readFailedDisplay (pack : Pack) (fullPath : String) : String :=
  let base := pathRelative pack.rootPath fullPath
  match (pack.rootPath :: pack.includePaths).find?
      (fun root => isUnder fullPath root) with
  | some owningRoot =>
    if owningRoot ≠ pack.rootPath then
      "include(" ++ pathBasename owningRoot ++ ")/" ++
        pathRelative owningRoot fullPath
    else base
  | none => base

/-- The upward `meta.yml` walk of `tryFilesystemFallback` (part_002 lines
1384-1432).  The outer `none` models the source's infinite loop: on a symlink
escape (or a `realpathSync` failure) the `continue` statement skips the
directory update, so the source loop never terminates there.  The inner
`none` means the walk finished without a hit and the generic scan follows. -/
def tffMetaWalk (ownerRoot fpLower : String) (parentDoc : ParsedYaml) :
    Nat → String → Pack → Option (Option (FsFallbackResult × Pack))
  | 0, _, _ => some none
  | fuel + 1, searchDir, pack =>
    let ownerRootAbs := pathResolve ownerRoot
    if ¬ isUnder searchDir ownerRootAbs then some none
    else
      let metaPathAbs := pathResolve (pathJoin searchDir fpLower)
      if fsExists pack metaPathAbs ∧
          (jsEndsWith (jsToLower metaPathAbs) ".yml" ∨
           jsEndsWith (jsToLower metaPathAbs) ".yaml") then
        let rootReal := realpathSync pack ownerRootAbs
        let candReal := realpathSync pack metaPathAbs
        if ¬ isUnder candReal rootReal then none
        else
          match jsGet pack.fsFiles metaPathAbs with
          | some (some parsed) =>
            some (some (.found parsed, addParsedDoc pack parsed))
          | _ =>
            let display :=
              if ownerRoot ≠ pack.rootPath then
                "include(" ++ pathBasename ownerRoot ++ ")/" ++
                  pathRelative ownerRoot metaPathAbs
              else pathRelative pack.rootPath metaPathAbs
            some (some (.missing,
              pushDiag pack
                { code := "META_REF_READ_FAILED",
                  message := "Meta file \"" ++ display ++
                    "\" exists but could not be parsed (empty or invalid YAML)",
                  severity := "error", file := parentDoc.filePath }))
      else
        let parentDir := pathDirname searchDir
        if parentDir = searchDir then some none
        else tffMetaWalk ownerRoot fpLower parentDoc fuel parentDir pack

/-- Candidate collection of the generic filesystem scan (part_002 lines
1437-1457). -/
def tffCollect (pack : Pack) (filePath fpLower : String) :
    List (String × String) :=
  listConcatMap
    (fun root =>
      let c1 :=
        match getSafeCandidatePath pack root filePath with
        | some fp =>
          if fsExists pack fp ∧
              (jsEndsWith (jsToLower fp) ".yml" ∨
               jsEndsWith (jsToLower fp) ".yaml") then [(fp, root)] else []
        | none => []
      let cExt :=
        if ¬ jsEndsWith fpLower ".yml" ∧ ¬ jsEndsWith fpLower ".yaml" then
          (match getSafeCandidatePath pack root (filePath ++ ".yml") with
           | some fp =>
             if fsExists pack fp ∧ jsEndsWith (jsToLower fp) ".yml" then
               [(fp, root)] else []
           | none => []) ++
          (match getSafeCandidatePath pack root (filePath ++ ".yaml") with
           | some fp =>
             if fsExists pack fp ∧ jsEndsWith (jsToLower fp) ".yaml" then
               [(fp, root)] else []
           | none => [])
        else []
      c1 ++ cExt)
    (pack.rootPath :: pack.includePaths)

/-- `tryFilesystemFallback` (part_002 lines 1367-1531).  `none` models the
non-terminating symlink-escape path of the `meta.yml` walk; the `catch`
branches of the source are dead here because the modelled filesystem never
throws. -/
def tryFilesystemFallback (filePath : String) (pack : Pack)
    (parentDoc : ParsedYaml) : Option (FsFallbackResult × Pack) :=
  let roots := pack.rootPath :: pack.includePaths
  let fpLower := jsToLower filePath
  let metaOutcome : Option (Option (FsFallbackResult × Pack)) :=
    if fpLower = "meta.yml" ∨ fpLower = "meta.yaml" then
      let currentFileAbs := pathResolve parentDoc.filePath
      let currentDir := pathDirname currentFileAbs
      match roots.find? (fun root => isUnder currentFileAbs root) with
      | some ownerRoot =>
        tffMetaWalk ownerRoot fpLower parentDoc
          ((pathSegments currentDir).length + 2) currentDir pack
      | none => some none
    else some none
  match metaOutcome with
  | none => none
  | some (some r) => some r
  | some none =>
    let foundFiles := tffCollect pack filePath fpLower
    let uniqueFiles :=
      jsValues (jsMapFromPairs (foundFiles.map fun f => (pathResolve f.1, f)))
    if uniqueFiles.length > 1 then
      some (.ambiguous (uniqueFiles.map fun f => fsCandidateDisplay pack f.1 f.2),
        pack)
    else
      match uniqueFiles with
      | [] => some (.missing, pack)
      | (fullPath, _) :: _ =>
        match jsGet pack.fsFiles fullPath with
        | some (some parsed) => some (.found parsed, addParsedDoc pack parsed)
        | some none =>
          some (.missing,
            pushDiag pack
              { code := "META_REF_READ_FAILED",
                message := "Meta file \"" ++ readFailedDisplay pack fullPath ++
                  "\" exists but could not be parsed (empty or invalid YAML)",
                severity := "error", file := parentDoc.filePath })
        | none => some (.missing, pack)

/-! ## `resolveMetaRef` (part_002 lines 850-1254) -/

/-- The `META_REF_CYCLE` diagnostic. -/
def cycleDiag (ref file : String) : Diagnostic :=
  { code := "META_REF_CYCLE",
    message := "Meta-reference cycle detected: \"" ++ ref ++
      "\" creates a circular reference",
    severity := "error", file := file }

/-- The `META_REF_PROBABLY_LITERAL` diagnostic. -/
def probablyLiteralDiag (ref file : String) : Diagnostic :=
  { code := "META_REF_PROBABLY_LITERAL",
    message := "Meta-reference \"" ++ ref ++
      "\" was treated as literal. It looked like a file reference but could not be resolved.",
    severity := "warning", file := file }

/-- The `META_REF_AMBIGUOUS` diagnostic of the filesystem fallback branches
(part_002 lines 1100-1107 and 1181-1188). -/
def fsAmbiguousDiag (filePart : String) (candidates : List String)
    (file : String) : Diagnostic :=
  { code := "META_REF_AMBIGUOUS",
    message := "Meta-reference \"" ++ filePart ++
      "\" is ambiguous. Multiple files match:\n" ++
      jsJoin "\n" (candidates.take 5) ++
      (if candidates.length > 5 then "\n..." else ""),
    severity := "error", file := file }

/-- Candidate display names for a registry ambiguity (part_002 lines
972-995). -/
def registryAmbiguityCandidates (pack : Pack) (docs : List ParsedYaml) :
    List String :=
  (docs.take 5).map fun doc =>
    let docPath := doc.filePath
    if isUnder docPath pack.rootPath then pathRelative pack.rootPath docPath
    else
      let best :=
        pack.includePaths.foldl
          (fun (acc : Option String × Int) root =>
            if isUnder docPath root ∧ (root.length : Int) > acc.2 then
              (some root, (root.length : Int))
            else acc)
          (none, -1)
      match best.1 with
      | some r => "include(" ++ pathBasename r ++ ")/" ++ pathRelative r docPath
      | none => docPath

/-- Resolution from a filesystem-located document under the cycle guard
(part_002 lines 1111-1156 and 1192-1237): the key is pushed before resolving
and popped on every exit path. -/
def metaRefResolveFsFound (r : Resolvers) (ref : String)
    (parsed : MetaRefParse) (baseOrigin : Origin) (siteKind : AuthoringKind)
    (metaSiteRaw : Option String) (parentDoc fallbackDoc : ParsedYaml)
    (pack : Pack) : Option (PValue × Pack) :=
  let cycleKey :=
    pathResolve fallbackDoc.filePath ++ ":" ++ jsJoin "." parsed.pathInFile
  if setHas pack.metaRefStack cycleKey then
    some (createPScalar (.str ref) baseOrigin,
      pushDiag pack (cycleDiag ref parentDoc.filePath))
  else
    let packAdd := { pack with metaRefStack := setAdd pack.metaRefStack cycleKey }
    match r.rfd fallbackDoc parsed.pathInFile packAdd with
    | none => none
    | some (resolution, pack2) =>
      match resolution with
      | .error e =>
        let pack3 := pushDiag pack2
          { code := "META_REF_PATH_MISSING", message := e,
            severity := "error", file := parentDoc.filePath }
        some (createPScalar (.str ref) baseOrigin,
          { pack3 with metaRefStack := setDelete pack3.metaRefStack cycleKey })
      | .ok res =>
        some (markAsMetaDerived res parentDoc.filePath
            (some (metaSiteRaw.getD ref)) (some siteKind),
          { pack2 with metaRefStack := setDelete pack2.metaRefStack cycleKey })

/-- The `meta.yml` parent-directory retry loop of the registry-hit path
(part_002 lines 1016-1048).  The loop variable shadows `parentDoc` in the
source, so the cycle diagnostic and the meta site inside use the parent meta
document.  Returns an early return value, the last resolution attempt and
the pack. -/
def metaRetryLoop (r : Resolvers) (parsed : MetaRefParse)
    (siteKind : AuthoringKind) (metaSiteRaw : Option String) (ref : String)
    (baseOrigin : Origin) :
    List ParsedYaml → Except String PValue → Pack →
    Option (Option (PValue × Pack) × Except String PValue × Pack)
  | [], resolution, pack => some (none, resolution, pack)
  | pd :: rest, _, pack =>
    match r.rfd pd parsed.pathInFile pack with
    | none => none
    | some (resI, packI) =>
      match resI with
      | .ok res =>
        let cycleKey :=
          pathResolve pd.filePath ++ ":" ++ jsJoin "." parsed.pathInFile
        if setHas packI.metaRefStack cycleKey then
          some (some (createPScalar (.str ref) baseOrigin,
            pushDiag packI (cycleDiag ref pd.filePath)), resI, packI)
        else
          let packAdd :=
            { packI with metaRefStack := setAdd packI.metaRefStack cycleKey }
          some (some (markAsMetaDerived res pd.filePath
              (some (metaSiteRaw.getD ref)) (some siteKind),
            { packAdd with
              metaRefStack := setDelete packAdd.metaRefStack cycleKey }),
            resI, packAdd)
      | .error _ =>
        metaRetryLoop r parsed siteKind metaSiteRaw ref baseOrigin rest resI packI

/-- The registry-hit path of `resolveMetaRef` (part_002 lines 1008-1093).
Note the source order: `resolveFromDoc` — which recursively resolves the
located target — runs *before* the cycle key is checked or pushed; the
push/pop only surround the already-computed result. -/
def metaRefRegistryHit (r : Resolvers) (ref normalizedFilePart : String)
    (parsed : MetaRefParse) (baseOrigin : Origin) (siteKind : AuthoringKind)
    (metaSiteRaw : Option String) (parentDoc doc : ParsedYaml) (pack : Pack) :
    Option (PValue × Pack) :=
  match r.rfd doc parsed.pathInFile pack with
  | none => none
  | some (resolution0, pack0) =>
    let retry :
        Option (Option (PValue × Pack) × Except String PValue × Pack) :=
      if ((match resolution0 with | .error _ => true | .ok _ => false) &&
          jsToLower normalizedFilePart = "meta.yml" : Bool) then
        let (parentMetaDocs, pack1) :=
          findParentMetaFiles normalizedFilePart pack0 parentDoc
        metaRetryLoop r parsed siteKind metaSiteRaw ref baseOrigin
          parentMetaDocs resolution0 pack1
      else some (none, resolution0, pack0)
    match retry with
    | none => none
    | some (some ret, _, _) => some ret
    | some (none, resolution, packR) =>
      let cycleKey :=
        pathResolve doc.filePath ++ ":" ++ jsJoin "." parsed.pathInFile
      if setHas packR.metaRefStack cycleKey then
        some (createPScalar (.str ref) baseOrigin,
          pushDiag packR (cycleDiag ref parentDoc.filePath))
      else
        let packAdd :=
          { packR with metaRefStack := setAdd packR.metaRefStack cycleKey }
        match resolution with
        | .error e =>
          let p2 := pushDiag packAdd
            { code := "META_REF_PATH_MISSING", message := e,
              severity := "error", file := parentDoc.filePath }
          some (createPScalar (.str ref) baseOrigin,
            { p2 with metaRefStack := setDelete p2.metaRefStack cycleKey })
        | .ok res =>
          some (markAsMetaDerived res parentDoc.filePath
              (some (metaSiteRaw.getD ref)) (some siteKind),
            { packAdd with
              metaRefStack := setDelete packAdd.metaRefStack cycleKey })

/-- The base origin every skipped or failed meta-reference result carries
(part_002 lines 893-905): the `'meta-skipped'` sentinel plus the reference
text as scalar authoring. -/
def metaRefBaseOrigin (ref : String) (parentDoc : ParsedYaml) : Origin :=
  { via := some Via.metaSkipped, file := parentDoc.filePath,
    authoring := some { kind := .scalar, scalarType := some .string,
                        raw := some ref } }

/-- The literal scalar returned on every skipped or failed meta-reference
path: the original reference text under `metaRefBaseOrigin`. -/
def metaSkippedLiteral (ref : String) (parentDoc : ParsedYaml) : PValue :=
  createPScalar (.str ref) (metaRefBaseOrigin ref parentDoc)

/-- The absolute-path `META_REF_TRAVERSAL` diagnostic (part_002 lines
917-923). -/
def absPathDiag (filePart file : String) : Diagnostic :=
  { code := "META_REF_TRAVERSAL",
    message := "Meta-reference contains absolute path which is not allowed: \"" ++
      filePart ++ "\"",
    severity := "error", file := file }

/-- The directory-traversal `META_REF_TRAVERSAL` diagnostic (part_002 lines
951-957). -/
def traversalDiag (filePart file : String) : Diagnostic :=
  { code := "META_REF_TRAVERSAL",
    message := "Meta-reference contains directory traversal which is not allowed: \"" ++
      filePart ++ "\"",
    severity := "error", file := file }

/-- The `META_REF_MULTIPLE_COLONS` warning (part_002 lines 935-941). -/
def multiColonDiag (ref file : String) : Diagnostic :=
  { code := "META_REF_MULTIPLE_COLONS",
    message := "Meta-reference \"" ++ ref ++
      "\" contains multiple colons, which is unusual in Terra. Only the first colon is used for file/path separation.",
    severity := "warning", file := file }

/-- The `META_REF_AMBIGUOUS` diagnostic of the registry lookup (part_002
lines 997-1004). -/
def registryAmbiguousDiag (pack : Pack) (result : RegistryFindResult)
    (filePart file : String) : Diagnostic :=
  { code := "META_REF_AMBIGUOUS",
    message := "Meta-reference \"" ++ filePart ++
      "\" is ambiguous. Multiple files match:\n" ++
      jsJoin "\n" (registryAmbiguityCandidates pack result.docs) ++
      (if result.docs.length > 5 then "\n..." else ""),
    severity := "error", file := file }

/-- `resolveMetaRef` (part_002 lines 850-1254), one fuel level. -/
def resolveMetaRefF (r : Resolvers) (ref : String) (pack : Pack)
    (parentDoc : ParsedYaml) (siteKind : AuthoringKind)
    (metaSiteRaw : Option String) : Option (PValue × Pack) :=
  let confidence := getMetaRefConfidence ref
  let baseOrigin : Origin := metaRefBaseOrigin ref parentDoc
  let lit := metaSkippedLiteral ref parentDoc
  if confidence = .unlikelyRef then some (lit, pack)
  else
    match parseMetaRefCandidate ref with
    | none => some (lit, pack)
    | some parsed =>
      if parsed.looksWindowsAbs ∨ pathIsAbsolute parsed.filePart ∨
          jsStartsWith parsed.filePart "\\\\" ∨
          jsStartsWith parsed.filePart "//" then
        some (lit, pushDiag pack (absPathDiag parsed.filePart parentDoc.filePath))
      else
        let pack :=
          if parsed.hasMultipleColons then
            pushDiag pack (multiColonDiag ref parentDoc.filePath)
          else pack
        if hasDirectoryTraversal parsed.filePart then
          some (lit, pushDiag pack
            (traversalDiag parsed.filePart parentDoc.filePath))
        else
          let normalizedFilePart := normalizeFilePath parsed.filePart
          let registryResult :=
            attemptRegistryResolution normalizedFilePart pack
              (some parentDoc.filePath)
          if registryResult.ambiguous then
            some (lit, pushDiag pack
              (registryAmbiguousDiag pack registryResult parsed.filePart
                parentDoc.filePath))
          else
            match registryResult.docs with
            | doc :: _ =>
              metaRefRegistryHit r ref normalizedFilePart parsed baseOrigin
                siteKind metaSiteRaw parentDoc doc pack
            | [] =>
              if confidence = .definitelyRef then
                match tryFilesystemFallback normalizedFilePart pack parentDoc with
                | none => none
                | some (fsRes, pack1) =>
                  match fsRes with
                  | .ambiguous candidates =>
                    some (lit, pushDiag pack1
                      (fsAmbiguousDiag parsed.filePart candidates parentDoc.filePath))
                  | .found fallbackDoc =>
                    metaRefResolveFsFound r ref parsed baseOrigin siteKind
                      metaSiteRaw parentDoc fallbackDoc pack1
                  | .missing =>
                    some (lit, pushDiag pack1
                      { code := "META_REF_FILE_MISSING",
                        message := "Meta file \"" ++ parsed.filePart ++
                          "\" not found.",
                        severity := "error", file := parentDoc.filePath })
              else if confidence = .probablyRef then
                if hasYamlExtension normalizedFilePart ∨
                    normalizedFilePart = "meta.yml" ∨
                    normalizedFilePart = "meta.yaml" ∨
                    jsIncludes normalizedFilePart "/" then
                  match tryFilesystemFallback normalizedFilePart pack parentDoc with
                  | none => none
                  | some (fsRes, pack1) =>
                    match fsRes with
                    | .ambiguous candidates =>
                      some (lit, pushDiag pack1
                        (fsAmbiguousDiag parsed.filePart candidates parentDoc.filePath))
                    | .found fallbackDoc =>
                      metaRefResolveFsFound r ref parsed baseOrigin siteKind
                        metaSiteRaw parentDoc fallbackDoc pack1
                    | .missing =>
                      some (lit, pushDiag pack1
                        (probablyLiteralDiag ref parentDoc.filePath))
                else
                  some (lit, pushDiag pack
                    (probablyLiteralDiag ref parentDoc.filePath))
              else some (lit, pack)

/-! ## `resolveFromDoc` and `resolveValue` (part_002 lines 308-836,
1280-1302) -/

/-- The path walk of `resolveFromDoc`: maps by string key, sequences by
all-digit index; `none` is a missing path segment. -/
def navigatePath : Option YNode → List String → Option (Option YNode)
  | current, [] => some current
  | current, part :: rest =>
    let next : Option YNode :=
      match current with
      | some (.ymap items) => ymapGet items part
      | some (.yseq items) =>
        if part ≠ "" ∧ part.data.all Char.isDigit then
          items.get? (digitsVal part.data 0)
        else none
      | _ => none
    match next with
    | none => none
    | some n => navigatePath (some n) rest

/-- `resolveFromDoc` (part_002 lines 1280-1302), one fuel level. -/
def resolveFromDocF (r : Resolvers) (doc : ParsedYaml)
    (pathInFile : List String) (pack : Pack) :
    Option (Except String PValue × Pack) :=
  match navigatePath doc.contents pathInFile with
  | none =>
    some (.error ("Path \"" ++ jsJoin "." pathInFile ++
      "\" not found in meta file."), pack)
  | some current =>
    match r.rv current pack doc [] 0 with
    | none => none
    | some (resolved, pack') => some (.ok resolved, pack')

/-- The post-processing of the whole-scalar meta-reference branch of
`resolveValue` (part_002 lines 547-572): a `'meta-skipped'` result is
returned untouched; an actually resolved result is rewrapped per kind with
`via='meta'` and a `metaSite` describing this referencing scalar. -/
def wholeScalarWrap (parentDoc : ParsedYaml) (nodeVal : JSVal) :
    Option (PValue × Pack) → Option (PValue × Pack)
  | none => none
  | some (resolved, pack') =>
    let metaSite : MetaSite :=
      { file := parentDoc.filePath, kind := .scalar,
        raw := some (jsString nodeVal) }
    match resolved with
    | .scalar v o =>
      if o.via = some Via.metaSkipped then some (.scalar v o, pack')
      else
        some (.scalar v
          { o with via := some Via.meta, metaSite := some metaSite }, pack')
    | .seq i o =>
      if o.via = some Via.metaSkipped then some (.seq i o, pack')
      else
        some (.seq i
          { o with via := some Via.meta, metaSite := some metaSite }, pack')
    | .map e o =>
      if o.via = some Via.metaSkipped then some (.map e o, pack')
      else
        some (.map e
          { o with via := some Via.meta, metaSite := some metaSite }, pack')

/-- `resolveValue` (part_002 lines 308-836), one fuel level.  The
field-classification flags (source lines 352-357) gate only the expression
and block-state validation blocks (lines 472-498, 582-634), which are no-ops
under the accepting validator model and are therefore omitted here. -/
def resolveValueF (r : Resolvers) (node : Option YNode) (pack : Pack)
    (parentDoc : ParsedYaml) (fieldPath : List String) (aliasDepth : Nat) :
    Option (PValue × Pack) :=
  if aliasDepth > 50 then
    let origin : Origin :=
      { via := some Via.direct, file := parentDoc.filePath,
        authoring := some { kind := .scalar, scalarType := some .string,
                            raw := some "[ALIAS_CYCLE]" } }
    some (createPScalar (.str "[ALIAS_CYCLE]") origin,
      pushDiag pack
        { code := "ALIAS_CYCLE",
          message := "Alias cycle detected: maximum alias resolution depth exceeded",
          severity := "error", file := parentDoc.filePath })
  else
    match node with
    | some (.yalias a) =>
      r.rv (resolveAlias parentDoc a) pack parentDoc fieldPath (aliasDepth + 1)
    | none => some (createPScalar .undef { file := parentDoc.filePath }, pack)
    | some n =>
      let origin : Origin :=
        { file := parentDoc.filePath, via := some Via.direct,
          authoring := authoringOf n }
      match n with
      | .scalar nodeVal =>
        let val := jsString nodeVal
        if jsIncludes val "$\x7b" then
          resolveInterpolatedScalar r parentDoc origin nodeVal val pack
        else if jsStartsWith val "$" then
          wholeScalarWrap parentDoc nodeVal
            (r.rmr val pack parentDoc .scalar none)
        else
          let numericHit : Option JsNumber :=
            if numericUnderscoreLit val ∧ jsIncludes val "_" then
              jsNumberParse (stripUnderscores val)
            else none
          match numericHit with
          | some nv => some (createPScalar (.num nv) origin, pack)
          | none =>
            let finalValue :=
              if val = jsString nodeVal then nodeVal else JSVal.str val
            some (createPScalar finalValue origin, pack)
      | .ymap items =>
        match mapPass1 r parentDoc fieldPath aliasDepth items pack [] [] with
        | none => none
        | some (ms, lp, pack1) =>
          let (entries1, pack2) :=
            applyMergeSources ms [] pack1 parentDoc.filePath
          match applyLocalPairs r parentDoc fieldPath aliasDepth lp entries1 pack2 with
          | none => none
          | some (entries2, pack3) => some (createPMap entries2 origin, pack3)
      | .yseq items =>
        match seqItemsGo r parentDoc fieldPath aliasDepth items pack [] with
        | none => none
        | some (its, pack1) => some (createPSeq its origin, pack1)
      | .yalias a =>
        r.rv (resolveAlias parentDoc a) pack parentDoc fieldPath (aliasDepth + 1)

/-- Tie the mutual recursion: each fuel level uses the functions one level
down; fuel `0` is the not-yet-finished computation. -/
def mkResolvers : Nat → Resolvers
  | 0 =>
    { rv := fun _ _ _ _ _ => none,
      rmr := fun _ _ _ _ _ => none,
      rfd := fun _ _ _ => none }
  | n + 1 =>
    let r := mkResolvers n
    { rv := resolveValueF r, rmr := resolveMetaRefF r, rfd := resolveFromDocF r }

/-- `resolveValue` at a given fuel. -/
def resolveValue (fuel : Nat) :
    Option YNode → Pack → ParsedYaml → List String → Nat →
    Option (PValue × Pack) :=
  (mkResolvers fuel).rv

/-- `resolveMetaRef` at a given fuel. -/
def resolveMetaRef (fuel : Nat) :
    String → Pack → ParsedYaml → AuthoringKind → Option String →
    Option (PValue × Pack) :=
  (mkResolvers fuel).rmr

/-- `resolveFromDoc` at a given fuel. -/
def resolveFromDoc (fuel : Nat) :
    ParsedYaml → List String → Pack → Option (Except String PValue × Pack) :=
  (mkResolvers fuel).rfd

/-! ## Inheritance resolution (src/unnamed/part_007 `getEffectiveObject`) -/

/-- The dynamic accumulator of part_007 `getEffectiveObject`:
`Object.assign` acts on plain objects, so what it copies are the own
enumerable properties of the operands — for a PValue these are the
`kind` / `value` / `items` / `entries` / `origin` fields of its variant,
never the individual map entries. -/
structure EffObj where
  kind : Option String := none
  value : Option JSVal := none
  items : Option (List PValue) := none
  entries : Option (List (String × PValue)) := none
  origin : Option Origin := none

/-- `Object.assign(base, pv)` with a PValue source: copy that variant's own
enumerable properties. -/
def objAssignPValue (base : EffObj) (pv : PValue) : EffObj :=
  match pv with
  | .scalar v o =>
    { base with
      kind := some "scalar"
      value := some v
      origin := some o }
  | .seq i o =>
    { base with
      kind := some "seq"
      items := some i
      origin := some o }
  | .map e o =>
    { base with
      kind := some "map"
      entries := some e
      origin := some o }

/-- `Object.assign(base, src)` with another accumulator as source: copy the
properties the source owns. -/
def objAssignEff (base src : EffObj) : EffObj :=
  { kind := src.kind <|> base.kind
    value := src.value <|> base.value
    items := src.items <|> base.items
    entries := src.entries <|> base.entries
    origin := src.origin <|> base.origin }

/-- The parent-merge loop of `getEffectiveObject` (part_007 lines 98-116),
over the already-reversed parent list.  A thrown error from a recursive call
propagates immediately; a missing parent emits `EXTENDS_TARGET_MISSING` and
the loop continues. -/
def geoParents
    (geoRec : String → String → Pack → List (String × String) →
      Option (Except String (Option EffObj) × Pack × List (String × String)))
    (type typeUpper : String) (obj : ConfigObject) :
    List String → EffObj → Pack → List (String × String) →
    Option (Except String EffObj × Pack × List (String × String))
  | [], base, pack, seen => some (.ok base, pack, seen)
  | parentId :: rest, base, pack, seen =>
    match geoRec type parentId pack seen with
    | none => none
    | some (.error e, pack', seen') => some (.error e, pack', seen')
    | some (.ok parentEffective, pack', seen') =>
      match parentEffective with
      | some pe =>
        geoParents geoRec type typeUpper obj rest (objAssignEff base pe) pack' seen'
      | none =>
        geoParents geoRec type typeUpper obj rest base
          (pushDiag pack'
            { code := "EXTENDS_TARGET_MISSING",
              message := "Inheritance target \"" ++ parentId ++
                "\" of type \"" ++ typeUpper ++ "\" not found.",
              severity := "error", file := obj.parsedYaml.filePath })
          seen'

/-- part_007 `Registry.getEffectiveObject` (lines 82-126).  The thrown
circular-inheritance error is `Except.error`; the mutable `seen` map is
threaded explicitly, with the `finally`-scoped `seen.delete(key)` applied on
both the normal and the error exit.  The JS truthiness test `if (obj.extends)`
makes an empty-string single parent falsy (skipped) while an empty array is
truthy. -/
def getEffectiveObject : Nat → String → String → Pack →
    List (String × String) →
    Option (Except String (Option EffObj) × Pack × List (String × String))
  | 0, _, _, _, _ => none
  | fuel + 1, type, id, pack, seen =>
    let typeUpper := jsToUpper type
    let idUpper := jsToUpper id
    let key := typeUpper ++ ":" ++ idUpper
    match getObject pack type id with
    | none => some (.ok none, pack, seen)
    | some obj =>
      if jsHas seen key then
        let chain := jsJoin " -> " (jsValues seen ++ [obj.id])
        some (.error ("Circular inheritance detected: " ++ chain), pack, seen)
      else
        let seen1 := jsSet seen key obj.id
        let parentIds : Option (List String) :=
          match obj.extendsIds with
          | none => none
          | some (.one i) => if i = "" then none else some [i]
          | some (.many ids) => some ids
        match geoParents (getEffectiveObject fuel) type typeUpper obj
            ((parentIds.getD []).reverse) {} pack seen1 with
        | none => none
        | some (.error e, pack2, seen2) =>
          some (.error e, pack2, jsMapDelete seen2 key)
        | some (.ok base, pack2, seen2) =>
          match (mkResolvers fuel).rv (some obj.node) pack2 obj.parsedYaml [] 0 with
          | none => none
          | some (currentResolved, pack3) =>
            some (.ok (some (objAssignPValue base currentResolved)), pack3,
              jsMapDelete seen2 key)

/-! ## The validation loop (src/src/core/pack.ts `Pack.validate`) -/

/-- The biome loop of `Pack.validate` (pack.ts lines 418-500), restricted to
the control flow the inheritance claims concern: compute the effective object
per biome, report `EXTENDS_CYCLE` with the thrown message when the
computation throws, skip only that biome and continue.  The schema / palette
/ stage checks run on a successful effective object are structural-schema
work that the spec places out of scope (section 1); they only append
diagnostics and are omitted. -/
def validateBiomesGo (fuel : Nat) : List ConfigObject → Pack → Option Pack
  | [], pack => some pack
  | biome :: rest, pack =>
    match getEffectiveObject fuel "BIOME" biome.id pack [] with
    | none => none
    | some (.error e, pack', _) =>
      validateBiomesGo fuel rest
        (pushDiag pack'
          { code := "EXTENDS_CYCLE", message := e, severity := "error",
            file := biome.parsedYaml.filePath })
    | some (.ok _, pack', _) => validateBiomesGo fuel rest pack'

/-- `Pack.validate` over the registered biomes (see `validateBiomesGo`). -/
def validateBiomes (fuel : Nat) (pack : Pack) : Option Pack :=
  validateBiomesGo fuel (getObjectsByType pack "BIOME") pack

/-! ## Concrete fixtures -/

/-- A string scalar node. -/
def sstr (s : String) : YNode :=
  .scalar (.str s)

/-- An integer scalar node (a YAML-parsed number). -/
def snum (n : Int) : YNode :=
  .scalar (.num ⟨n, 0⟩)

/-- A document with no registered content, used as the referencing site. -/
def callerDoc : ParsedYaml :=
  { filePath := "/pack/caller.yml" }

/-- Fixture for the merge-defaults property: `defs.yml` holding
`B = ⦃x: 2, y: 3⦄`. -/
def defsDoc : ParsedYaml :=
  { filePath := "/pack/defs.yml",
    contents := some (.ymap
      [(sstr "B", .ymap [(sstr "x", snum 2), (sstr "y", snum 3)])]) }

/-- Pack registering `defs.yml`. -/
def packMerge : Pack :=
  { rootPath := "/pack", allDocs := [("/pack/defs.yml", defsDoc)] }

/-- The map `⦃x: 1, <<: $defs.yml:B⦄`. -/
def mergeNode : YNode :=
  .ymap [(sstr "x", snum 1), (sstr "<<", sstr "$defs.yml:B")]

/-- Fixture for interpolation: `a.yml` holding `one: 1`, `zero: 0`. -/
def interpTargetDoc : ParsedYaml :=
  { filePath := "/pack/a.yml",
    contents := some (.ymap [(sstr "one", snum 1), (sstr "zero", snum 0)]) }

/-- Pack registering `a.yml`. -/
def packInterp : Pack :=
  { rootPath := "/pack", allDocs := [("/pack/a.yml", interpTargetDoc)] }

/-- Fixture for the reference cycle: `File1.yml:k` points at `File2.yml:k`
and back. -/
def file1Doc : ParsedYaml :=
  { filePath := "/pack/File1.yml",
    contents := some (.ymap [(sstr "k", sstr "$File2.yml:k")]) }

/-- See `file1Doc`. -/
def file2Doc : ParsedYaml :=
  { filePath := "/pack/File2.yml",
    contents := some (.ymap [(sstr "k", sstr "$File1.yml:k")]) }

/-- Pack registering the two cyclic documents. -/
def packCycle : Pack :=
  { rootPath := "/pack",
    allDocs := [("/pack/File1.yml", file1Doc), ("/pack/File2.yml", file2Doc)] }

/-- A document whose `k` references a file that exists nowhere. -/
def targetDoc : ParsedYaml :=
  { filePath := "/pack/Target.yml",
    contents := some (.ymap [(sstr "k", sstr "$Missing.yml:x")]) }

/-- Pack registering `Target.yml`, with the in-flight set already holding the
key for `Target.yml:k` — the situation in which the cycle guard is supposed
to fire before any recursion into the target. -/
def packInFlight : Pack :=
  { rootPath := "/pack",
    allDocs := [("/pack/Target.yml", targetDoc)],
    metaRefStack := ["/pack/Target.yml:k"] }

/-- Fixture for the lookup-ambiguity property: two registered documents both
match `x.yml` by suffix. -/
def ambDoc1 : ParsedYaml :=
  { filePath := "/pack/p1/x.yml", contents := some (.ymap [(sstr "k", snum 1)]) }

/-- See `ambDoc1`. -/
def ambDoc2 : ParsedYaml :=
  { filePath := "/pack/p2/x.yml", contents := some (.ymap [(sstr "k", snum 2)]) }

/-- Pack registering the two suffix-ambiguous documents. -/
def packAmb : Pack :=
  { rootPath := "/pack",
    allDocs := [("/pack/p1/x.yml", ambDoc1), ("/pack/p2/x.yml", ambDoc2)] }

/-- `P1 = ⦃a: 1⦄` of the extends-priority fixture. -/
def p1Doc : ParsedYaml :=
  { filePath := "/pack/biomes/p1.yml",
    contents := some (.ymap
      [(sstr "type", sstr "BIOME"), (sstr "id", sstr "P1"), (sstr "a", snum 1)]) }

/-- `P2 = ⦃a: 2, b: 5⦄` of the extends-priority fixture. -/
def p2Doc : ParsedYaml :=
  { filePath := "/pack/biomes/p2.yml",
    contents := some (.ymap
      [(sstr "type", sstr "BIOME"), (sstr "id", sstr "P2"),
       (sstr "a", snum 2), (sstr "b", snum 5)]) }

/-- `C` extending `[P1, P2]`, defining nothing else. -/
def cDoc : ParsedYaml :=
  { filePath := "/pack/biomes/c.yml",
    contents := some (.ymap
      [(sstr "type", sstr "BIOME"), (sstr "id", sstr "C"),
       (sstr "extends", .yseq [sstr "P1", sstr "P2"])]) }

/-- Pack with `P1`, `P2`, `C` registered through `addParsedDoc`. -/
def packExtends : Pack :=
  addParsedDoc (addParsedDoc (addParsedDoc { rootPath := "/pack" } p1Doc) p2Doc) cDoc

/-- Biome `A` extending `B` (inheritance-cycle fixture). -/
def biomeADoc : ParsedYaml :=
  { filePath := "/pack/biomes/a.yml",
    contents := some (.ymap
      [(sstr "type", sstr "BIOME"), (sstr "id", sstr "A"),
       (sstr "extends", sstr "B")]) }

/-- Biome `B` extending `A`. -/
def biomeBDoc : ParsedYaml :=
  { filePath := "/pack/biomes/b.yml",
    contents := some (.ymap
      [(sstr "type", sstr "BIOME"), (sstr "id", sstr "B"),
       (sstr "extends", sstr "A")]) }

/-- Biome `D` extending nothing. -/
def biomeDDoc : ParsedYaml :=
  { filePath := "/pack/biomes/d.yml",
    contents := some (.ymap
      [(sstr "type", sstr "BIOME"), (sstr "id", sstr "D"), (sstr "foo", snum 7)]) }

/-- Pack with the cyclic `A`/`B` pair and the healthy `D`. -/
def packBiomeCycle : Pack :=
  addParsedDoc (addParsedDoc (addParsedDoc { rootPath := "/pack" } biomeADoc)
    biomeBDoc) biomeDDoc

/-- A pack with nothing registered. -/
def packEmpty : Pack :=
  { rootPath := "/pack" }

/-- Entries of a successful effective object. -/
def geoEntries
    (res : Option (Except String (Option EffObj) × Pack ×
      List (String × String))) : Option (List (String × PValue)) :=
  match res with
  | some (.ok (some eff), _, _) => eff.entries
  | _ => none

/-- The parse of `$File1.yml:k` / `$File2.yml:k` (one colon, `k` path). -/
def cycParse (f : String) : MetaRefParse :=
  { filePart := f, pathInFile := ["k"], hasColon := true,
    looksWindowsAbs := false, hasMultipleColons := false }

/-- Resolution of `File1.yml`'s value `$File2.yml:k` at a given fuel. -/
def cycA (n : Nat) : Option (PValue × Pack) :=
  resolveValue n (some (sstr "$File2.yml:k")) packCycle file1Doc [] 0

/-- Resolution of `File2.yml`'s value `$File1.yml:k` at a given fuel. -/
def cycB (n : Nat) : Option (PValue × Pack) :=
  resolveValue n (some (sstr "$File1.yml:k")) packCycle file2Doc [] 0

/-! ## Claim theorems -/

/-- C9: the confidence triage classifies `$minecraft:stone` (sigil-prefixed
namespaced identifier with a non-file-like colon left-hand side) as
`unlikely_ref`, and `$palettes/forest.yml:top` as `definitely_ref`; for the
former, `resolveMetaRef` returns the reference text as a literal
meta-skipped scalar with the pack state — registry, filesystem, diagnostics
and in-flight set — completely untouched, for every pack and fuel, i.e.
without performing any registry or filesystem lookup. -/
theorem spec2proof_c9 :
    getMetaRefConfidence "$minecraft:stone" = MetaRefConfidence.unlikelyRef ∧
    getMetaRefConfidence "$palettes/forest.yml:top" =
      MetaRefConfidence.definitelyRef ∧
    ∀ (fuel : Nat) (pack : Pack) (parentDoc : ParsedYaml)
      (siteKind : AuthoringKind) (metaSiteRaw : Option String),
      resolveMetaRef (fuel + 1) "$minecraft:stone" pack parentDoc siteKind
        metaSiteRaw =
        some (metaSkippedLiteral "$minecraft:stone" parentDoc, pack) := by
  refine ⟨rfl, rfl, fun fuel pack parentDoc siteKind metaSiteRaw => ?_⟩
  rfl

/-- C1 (code evidence): with `C.extends = [P1, P2]`, `P1 = ⦃a: 1⦄`,
`P2 = ⦃a: 2, b: 5⦄` and `C` defining nothing else, the parents' effective
objects do hold `a` and `b`, yet the effective object of `C` computed by
`getEffectiveObject` holds neither — its `entries` are exactly `C`'s own
literal entries (`type`, `id`, `extends`), because `Object.assign` copies the
`entries` property of the PValue containers wholesale instead of merging
individual keys. -/
theorem spec2proof_c1 :
    ((geoEntries (getEffectiveObject 8 "BIOME" "P1" packExtends [])).bind
        (fun e => jsGet e "a")).map toJS =
      some (JsTree.prim (JSVal.num ⟨1, 0⟩)) ∧
    ((geoEntries (getEffectiveObject 8 "BIOME" "P2" packExtends [])).bind
        (fun e => jsGet e "a")).map toJS =
      some (JsTree.prim (JSVal.num ⟨2, 0⟩)) ∧
    ((geoEntries (getEffectiveObject 8 "BIOME" "P2" packExtends [])).bind
        (fun e => jsGet e "b")).map toJS =
      some (JsTree.prim (JSVal.num ⟨5, 0⟩)) ∧
    (geoEntries (getEffectiveObject 8 "BIOME" "C" packExtends [])).bind
        (fun e => jsGet e "a") = none ∧
    (geoEntries (getEffectiveObject 8 "BIOME" "C" packExtends [])).bind
        (fun e => jsGet e "b") = none ∧
    (geoEntries (getEffectiveObject 8 "BIOME" "C" packExtends [])).map
        (fun e => e.map Prod.fst) = some ["type", "id", "extends"] :=
  ⟨rfl, rfl, rfl, rfl, rfl, rfl⟩

/-- C4 (counterexample): `$C:/Windows/x` has a Windows drive-letter absolute
file part (`looksWindowsAbs` is detected by the parser), yet the confidence
triage classifies it `unlikely_ref`, so `resolveMetaRef` returns it as a
literal with the pack completely unchanged — no `META_REF_TRAVERSAL` (nor
any other) diagnostic is emitted, contradicting the claim that such
references are always rejected with a traversal diagnostic. -/
theorem spec2proof_c4_counterexample :
    getMetaRefConfidence "$C:/Windows/x" = MetaRefConfidence.unlikelyRef ∧
    (parseMetaRefCandidate "$C:/Windows/x").map MetaRefParse.looksWindowsAbs =
      some true ∧
    resolveMetaRef 5 "$C:/Windows/x" packEmpty callerDoc AuthoringKind.scalar
      none = some (metaSkippedLiteral "$C:/Windows/x" callerDoc, packEmpty) ∧
    packEmpty.diagnostics = [] :=
  ⟨rfl, rfl, rfl, rfl⟩

/-- C4 (amended): for every meta-reference that passes the confidence triage
(is not classified `unlikely_ref`), an absolute file part (Windows
drive-letter prefix, leading slash, or UNC prefix) is rejected with a
`META_REF_TRAVERSAL` diagnostic and the literal reference text, and a
non-absolute file part containing a literal `..` segment likewise (preceded
only by a possible multiple-colons warning) — in both cases before any
registry or filesystem lookup, as the result is the same for every registry
and filesystem state. -/
theorem spec2proof_c4 :
    ∀ (r : Resolvers) (ref : String) (pack : Pack) (parentDoc : ParsedYaml)
      (siteKind : AuthoringKind) (metaSiteRaw : Option String)
      (parsed : MetaRefParse),
      getMetaRefConfidence ref ≠ MetaRefConfidence.unlikelyRef →
      parseMetaRefCandidate ref = some parsed →
      ((parsed.looksWindowsAbs ∨ pathIsAbsolute parsed.filePart ∨
          jsStartsWith parsed.filePart "\\\\" ∨
          jsStartsWith parsed.filePart "//") →
        resolveMetaRefF r ref pack parentDoc siteKind metaSiteRaw =
          some (metaSkippedLiteral ref parentDoc,
            pushDiag pack (absPathDiag parsed.filePart parentDoc.filePath))) ∧
      (¬ (parsed.looksWindowsAbs ∨ pathIsAbsolute parsed.filePart ∨
          jsStartsWith parsed.filePart "\\\\" ∨
          jsStartsWith parsed.filePart "//") →
        hasDirectoryTraversal parsed.filePart →
        resolveMetaRefF r ref pack parentDoc siteKind metaSiteRaw =
          some (metaSkippedLiteral ref parentDoc,
            pushDiag
              (if parsed.hasMultipleColons then
                pushDiag pack (multiColonDiag ref parentDoc.filePath)
               else pack)
              (traversalDiag parsed.filePart parentDoc.filePath))) := by
  intro r ref pack parentDoc siteKind metaSiteRaw parsed hconf hparse
  constructor
  · intro habs
    simp only [resolveMetaRefF, hparse]
    rw [if_neg hconf, if_pos habs]
  · intro habs htrav
    simp only [resolveMetaRefF, hparse]
    rw [if_neg hconf, if_neg habs, if_pos htrav]

/-- Witness for C4: the absolute reference `$/etc/passwd.yml:x` and the
traversal reference `$../x.yml:k` are both rejected with
`META_REF_TRAVERSAL` before any lookup. -/
theorem spec2proof_c4_witness :
    resolveMetaRefF (mkResolvers 1) "$/etc/passwd.yml:x" packEmpty callerDoc
      AuthoringKind.scalar none =
      some (metaSkippedLiteral "$/etc/passwd.yml:x" callerDoc,
        pushDiag packEmpty (absPathDiag "/etc/passwd.yml" callerDoc.filePath)) ∧
    resolveMetaRefF (mkResolvers 1) "$../x.yml:k" packEmpty callerDoc
      AuthoringKind.scalar none =
      some (metaSkippedLiteral "$../x.yml:k" callerDoc,
        pushDiag packEmpty (traversalDiag "../x.yml" callerDoc.filePath)) := by
  constructor
  · exact (spec2proof_c4 (mkResolvers 1) "$/etc/passwd.yml:x" packEmpty
      callerDoc AuthoringKind.scalar none
      { filePart := "/etc/passwd.yml", pathInFile := ["x"], hasColon := true,
        looksWindowsAbs := false, hasMultipleColons := false }
      (by decide) rfl).1 (Or.inr (Or.inl (by decide)))
  · exact (spec2proof_c4 (mkResolvers 1) "$../x.yml:k" packEmpty callerDoc
      AuthoringKind.scalar none
      { filePart := "../x.yml", pathInFile := ["k"], hasColon := true,
        looksWindowsAbs := false, hasMultipleColons := false }
      (by decide) rfl).2 (by decide) (by decide)

/-! ## Lookup lemmas for the merge semantics -/

/-- `jsGet` after `jsSet` at the same key. -/
theorem jsGet_jsSet_self {α : Type} (m : List (String × α)) (k : String)
    (v : α) : jsGet (jsSet m k v) k = some v := by
  induction m with
  | nil => simp [jsSet, jsGet]
  | cons p t ih =>
    by_cases h : p.1 = k
    · simp [jsSet, jsGet, h]
    · simp [jsSet, jsGet, h, ih]

/-- `jsGet` after `jsSet` at a different key. -/
theorem jsGet_jsSet_ne {α : Type} (m : List (String × α)) (k k' : String)
    (v : α) (h : k' ≠ k) : jsGet (jsSet m k' v) k = jsGet m k := by
  induction m with
  | nil => simp [jsSet, jsGet, h]
  | cons p t ih =>
    by_cases hp : p.1 = k'
    · simp [jsSet, jsGet, hp, h]
    · simp [jsSet, jsGet, hp, ih]

/-- First merge-source map holding a key (skipping non-map sources), the
reference value for the pass-2 fold. -/
def mergeFirstHit (k : String) : List PValue → Option PValue
  | [] => none
  | .map es _ :: rest => (jsGet es k) <|> mergeFirstHit k rest
  | .scalar _ _ :: rest => mergeFirstHit k rest
  | .seq _ _ :: rest => mergeFirstHit k rest

/-- One merge-source map applied as defaults: a key wins only when absent. -/
theorem foldDefaults_lookup (es : List (String × PValue))
    (entries : List (String × PValue)) (k : String) :
    jsGet (es.foldl
      (fun acc kv => if jsHas acc kv.1 then acc else jsSet acc kv.1 kv.2)
      entries) k = (jsGet entries k <|> jsGet es k) := by
  induction es generalizing entries with
  | nil => cases h : jsGet entries k <;> simp [jsGet, h, Option.orElse]
  | cons kv t ih =>
    rw [List.foldl_cons, ih]
    by_cases hk : kv.1 = k
    · subst hk
      by_cases hhas : jsHas entries kv.1
      · rcases Option.isSome_iff_exists.mp hhas with ⟨v, hv⟩
        simp [hv, hhas, jsGet, Option.orElse]
      · rw [if_neg hhas]
        have : jsGet entries kv.1 = none := by
          cases h : jsGet entries kv.1
          · rfl
          · exact absurd (by simp [jsHas, h]) hhas
        simp [this, jsGet_jsSet_self, jsGet, Option.orElse]
    · have hacc :
          jsGet (if jsHas entries kv.1 then entries else jsSet entries kv.1 kv.2) k =
            jsGet entries k := by
        by_cases hhas : jsHas entries kv.1
        · rw [if_pos hhas]
        · rw [if_neg hhas, jsGet_jsSet_ne _ _ _ _ hk]
      rw [hacc]
      simp [jsGet, hk]

/-- Pass 2 applies merge sources as defaults in order: on an accumulator, a
key's final value is the accumulator's if present, else the first-applied
merge-source map holding it. -/
theorem applyMergeSources_lookup (ms : List PValue)
    (entries : List (String × PValue)) (pack : Pack) (file : String)
    (k : String) :
    jsGet (applyMergeSources ms entries pack file).1 k =
      (jsGet entries k <|> mergeFirstHit k ms) := by
  induction ms generalizing entries pack with
  | nil => cases h : jsGet entries k <;> simp [applyMergeSources, mergeFirstHit, h, Option.orElse]
  | cons m t ih =>
    cases m with
    | map es o =>
      rw [show applyMergeSources (.map es o :: t) entries pack file =
        applyMergeSources t
          (es.foldl (fun acc kv => if jsHas acc kv.1 then acc else jsSet acc kv.1 kv.2) entries)
          pack file from rfl]
      rw [ih, foldDefaults_lookup, mergeFirstHit]
      cases jsGet entries k <;> cases jsGet es k <;> simp [Option.orElse]
    | scalar v o => rw [show applyMergeSources (.scalar v o :: t) entries pack file =
        applyMergeSources t entries (pushDiag pack
          { code := "META_MERGE_NOT_A_MAP",
            message := "Cannot merge a " ++ (PValue.scalar v o).kindStr ++ " into a map.",
            severity := "error", file := file }) file from rfl, ih, mergeFirstHit]
    | seq i o => rw [show applyMergeSources (.seq i o :: t) entries pack file =
        applyMergeSources t entries (pushDiag pack
          { code := "META_MERGE_NOT_A_MAP",
            message := "Cannot merge a " ++ (PValue.seq i o).kindStr ++ " into a map.",
            severity := "error", file := file }) file from rfl, ih, mergeFirstHit]

/-- Pass 3 leaves every key without a local pair untouched. -/
theorem applyLocalPairs_notin (r : Resolvers) (parentDoc : ParsedYaml)
    (fieldPath : List String) (aliasDepth : Nat) :
    ∀ (lp : List (String × YNode)) (entries : List (String × PValue))
      (pack : Pack) (out : List (String × PValue) × Pack),
      applyLocalPairs r parentDoc fieldPath aliasDepth lp entries pack = some out →
      ∀ k, (lp.map Prod.fst).contains k = false →
        jsGet out.1 k = jsGet entries k := by
  intro lp
  induction lp with
  | nil =>
    intro entries pack out h k _
    simp only [applyLocalPairs] at h
    cases h
    rfl
  | cons p t ih =>
    intro entries pack out h k hk
    simp only [applyLocalPairs] at h
    rcases p with ⟨keyStr, value⟩
    simp only [List.map_cons, List.contains_cons] at hk
    rcases Bool.or_eq_false_iff.mp hk with ⟨hk1, hk2⟩
    have hkne : keyStr ≠ k := by
      intro he
      subst he
      simp at hk1
    cases hr : r.rv (some value) pack parentDoc (fieldPath ++ [keyStr]) aliasDepth with
    | none => rw [hr] at h; cases h
    | some q =>
      rw [hr] at h
      have := ih (jsSet entries keyStr q.1) q.2 out h k hk2
      rw [this, jsGet_jsSet_ne _ _ _ _ hkne]

/-- C2: in the map branch of `resolveValue`, pass 2 applies all resolved
merge-source maps first with the first-applied source winning on conflicts
(a source contributes a key only if not already present), pass 3 applies the
local pairs last so keys without a local pair keep their merged value and
local pairs always overwrite; in particular the map
`⦃x: 1, <<: $defs.yml:B⦄` with `B = ⦃x: 2, y: 3⦄` resolves to
`⦃x: 1, y: 3⦄` with no diagnostics. -/
theorem spec2proof_c2 :
    (∀ (ms : List PValue) (pack : Pack) (file k : String),
      jsGet (applyMergeSources ms [] pack file).1 k = mergeFirstHit k ms) ∧
    (∀ (r : Resolvers) (parentDoc : ParsedYaml) (fieldPath : List String)
      (aliasDepth : Nat) (lp : List (String × YNode))
      (entries : List (String × PValue)) (pack : Pack)
      (out : List (String × PValue) × Pack),
      applyLocalPairs r parentDoc fieldPath aliasDepth lp entries pack = some out →
      ∀ k, (lp.map Prod.fst).contains k = false →
        jsGet out.1 k = jsGet entries k) ∧
    (resolveValue 6 (some mergeNode) packMerge callerDoc [] 0).map
        (fun p => (toJS p.1, p.2.diagnostics)) =
      some (JsTree.obj [("x", JsTree.prim (JSVal.num ⟨1, 0⟩)),
                        ("y", JsTree.prim (JSVal.num ⟨3, 0⟩))], []) := by
  refine ⟨fun ms pack file k => ?_, applyLocalPairs_notin, rfl⟩
  rw [applyMergeSources_lookup]
  rfl

/-- Witness for C2: the pass-3 lemma applied at a concrete local-pair list
and accumulator. -/
theorem spec2proof_c2_witness :
    applyLocalPairs (mkResolvers 1) callerDoc [] 0 [("x", snum 1)] [] packEmpty =
      some ([("x", createPScalar (JSVal.num ⟨1, 0⟩)
        { file := callerDoc.filePath, via := some Via.direct,
          authoring := authoringOf (snum 1) })], packEmpty) ∧
    jsGet [("x", createPScalar (JSVal.num ⟨1, 0⟩)
        { file := callerDoc.filePath, via := some Via.direct,
          authoring := authoringOf (snum 1) })] "y" =
      jsGet ([] : List (String × PValue)) "y" := by
  refine ⟨rfl, ?_⟩
  exact spec2proof_c2.2.1 (mkResolvers 1) callerDoc [] 0 [("x", snum 1)] []
    packEmpty _ rfl "y" rfl

/-! ## Seen-set restoration for inheritance resolution -/

/-- Deleting a freshly inserted key restores the map. -/
theorem jsMapDelete_jsSet (m : List (String × String)) (k v : String)
    (h : jsGet m k = none) : jsMapDelete (jsSet m k v) k = m := by
  induction m with
  | nil => simp [jsSet, jsMapDelete]
  | cons p t ih =>
    simp only [jsGet] at h
    by_cases hp : p.1 = k
    · rw [hp] at h; simp at h
    · rw [if_neg hp] at h
      simp only [jsSet, jsMapDelete, if_neg hp, List.filter_cons]
      rw [if_pos (by simpa using hp)]
      have := ih h
      simpa [jsMapDelete] using this

/-- The parent loop threads the `seen` map through recursive calls that each
restore it, so it restores it as a whole. -/
theorem geoParents_seen
    (geoRec : String → String → Pack → List (String × String) →
      Option (Except String (Option EffObj) × Pack × List (String × String)))
    (hrec : ∀ t i p s out, geoRec t i p s = some out → out.2.2 = s)
    (type typeUpper : String) (obj : ConfigObject) :
    ∀ (ids : List String) (base : EffObj) (pack : Pack)
      (seen : List (String × String))
      (out : Except String EffObj × Pack × List (String × String)),
      geoParents geoRec type typeUpper obj ids base pack seen = some out →
      out.2.2 = seen := by
  intro ids
  induction ids with
  | nil =>
    intro base pack seen out h
    simp only [geoParents] at h
    cases h
    rfl
  | cons pid rest ih =>
    intro base pack seen out h
    simp only [geoParents] at h
    cases hg : geoRec type pid pack seen with
    | none => rw [hg] at h; cases h
    | some trip =>
      rw [hg] at h
      have hseen : trip.2.2 = seen := hrec type pid pack seen trip hg
      rcases trip with ⟨res, pack', seen'⟩
      simp only at hseen
      subst hseen
      cases res with
      | error e =>
        simp only at h
        cases h
        rfl
      | ok pe =>
        cases pe with
        | some peVal =>
          simp only at h
          exact ih _ _ _ _ h
        | none =>
          simp only at h
          exact ih _ _ _ _ h

/-- Every `type:id` key `getEffectiveObject` adds to the call chain's `seen`
map is removed again on return, on success and on error alike. -/
theorem getEffectiveObject_seen :
    ∀ (fuel : Nat) (type id : String) (pack : Pack)
      (seen : List (String × String))
      (out : Except String (Option EffObj) × Pack × List (String × String)),
      getEffectiveObject fuel type id pack seen = some out → out.2.2 = seen := by
  intro fuel
  induction fuel with
  | zero => intro type id pack seen out h; simp [getEffectiveObject] at h
  | succ n ih =>
    intro type id pack seen out h
    unfold getEffectiveObject at h
    cases hobj : getObject pack type id with
    | none => rw [hobj] at h; cases h; rfl
    | some obj =>
      rw [hobj] at h
      dsimp only [] at h
      by_cases hhas : jsHas seen (jsToUpper type ++ ":" ++ jsToUpper id)
      · rw [if_pos hhas] at h; cases h; rfl
      · rw [if_neg hhas] at h
        have hkey : jsGet seen (jsToUpper type ++ ":" ++ jsToUpper id) = none := by
          cases hg : jsGet seen (jsToUpper type ++ ":" ++ jsToUpper id)
          · rfl
          · exact absurd (by simp [jsHas, hg]) hhas
        cases hgp : geoParents (getEffectiveObject n) type (jsToUpper type) obj
            ((Option.getD (match obj.extendsIds with
              | none => none
              | some (ExtendsSpec.one i) => if i = "" then none else some [i]
              | some (ExtendsSpec.many ids) => some ids) []).reverse)
            {} pack (jsSet seen (jsToUpper type ++ ":" ++ jsToUpper id) obj.id) with
        | none => rw [hgp] at h; cases h
        | some trip =>
          rw [hgp] at h
          have hseen : trip.2.2 =
              jsSet seen (jsToUpper type ++ ":" ++ jsToUpper id) obj.id :=
            geoParents_seen (getEffectiveObject n) ih type (jsToUpper type) obj
              _ _ _ _ trip hgp
          rcases trip with ⟨res, pack2, seen2⟩
          simp only at hseen
          subst hseen
          cases res with
          | error e =>
            simp only at h
            cases h
            exact jsMapDelete_jsSet _ _ _ hkey
          | ok base =>
            simp only at h
            cases hrv : (mkResolvers n).rv (some obj.node) pack2 obj.parsedYaml [] 0 with
            | none => rw [hrv] at h; cases h
            | some cur =>
              rw [hrv] at h
              cases h
              exact jsMapDelete_jsSet _ _ _ hkey

/-- C5: with `A extends B` and `B extends A`, `getEffectiveObject` raises a
circular-inheritance error carrying the full chain `A -> B -> A` while
leaving the pack and the `seen` map exactly as they were; every `type:id`
key added to the call chain's `seen` map is removed on return, on success or
error (for every fuel, input and pack); and the validation loop catches the
error per top-level object, reports `EXTENDS_CYCLE` for `A` and for `B`
only, and still computes the healthy biome `D` (whose `foo` entry resolves
to `7`), so the pass terminates having visited every object. -/
theorem spec2proof_c5 :
    getEffectiveObject 8 "BIOME" "A" packBiomeCycle [] =
      some (Except.error "Circular inheritance detected: A -> B -> A",
        packBiomeCycle, []) ∧
    (∀ (fuel : Nat) (type id : String) (pack : Pack)
      (seen : List (String × String))
      (out : Except String (Option EffObj) × Pack × List (String × String)),
      getEffectiveObject fuel type id pack seen = some out →
      out.2.2 = seen) ∧
    (validateBiomes 8 packBiomeCycle).map (fun p => p.diagnostics) =
      some [{ code := "EXTENDS_CYCLE",
              message := "Circular inheritance detected: A -> B -> A",
              severity := "error", file := "/pack/biomes/a.yml" },
            { code := "EXTENDS_CYCLE",
              message := "Circular inheritance detected: B -> A -> B",
              severity := "error", file := "/pack/biomes/b.yml" }] ∧
    ((geoEntries (getEffectiveObject 8 "BIOME" "D" packBiomeCycle [])).bind
        (fun e => jsGet e "foo")).map toJS =
      some (JsTree.prim (JSVal.num ⟨7, 0⟩)) :=
  ⟨rfl, getEffectiveObject_seen, rfl, rfl⟩

/-- Witness for C5: the seen-restoration part applied at a concrete lookup
with a non-empty `seen` map. -/
theorem spec2proof_c5_witness :
    getEffectiveObject 8 "BIOME" "ZZ" packBiomeCycle [("X", "x")] =
      some (Except.ok none, packBiomeCycle, [("X", "x")]) ∧
    ((Except.ok (none : Option EffObj), packBiomeCycle,
      [("X", "x")]) : Except String (Option EffObj) × Pack ×
        List (String × String)).2.2 = [("X", "x")] :=
  ⟨rfl, spec2proof_c5.2.1 8 "BIOME" "ZZ" packBiomeCycle [("X", "x")] _ rfl⟩

theorem markAsMetaDerived_via (p : PValue) (f : String) (s : Option String)
    (k : Option AuthoringKind) :
    (markAsMetaDerived p f s k).origin.via = some Via.meta := by
  cases p <;> rfl

theorem metaRefResolveFsFound_shape (r : Resolvers) (ref : String)
    (parsed : MetaRefParse) (bo : Origin) (sk : AuthoringKind)
    (msr : Option String) (parentDoc fb : ParsedYaml) (pack : Pack)
    (out : PValue × Pack)
    (h : metaRefResolveFsFound r ref parsed bo sk msr parentDoc fb pack =
      some out) :
    out.1 = createPScalar (.str ref) bo ∨
      out.1.origin.via = some Via.meta := by
  unfold metaRefResolveFsFound at h
  dsimp only [] at h
  split at h
  · cases h; left; rfl
  · split at h
    · cases h
    · split at h
      · cases h; left; rfl
      · cases h; right; exact markAsMetaDerived_via _ _ _ _

theorem metaRetryLoop_shape (r : Resolvers) (parsed : MetaRefParse)
    (sk : AuthoringKind) (msr : Option String) (ref : String) (bo : Origin) :
    ∀ (pds : List ParsedYaml) (res0 : Except String PValue) (pack : Pack)
      (ret : PValue × Pack) (resR : Except String PValue) (packR : Pack),
      metaRetryLoop r parsed sk msr ref bo pds res0 pack =
        some (some ret, resR, packR) →
      ret.1 = createPScalar (.str ref) bo ∨
        ret.1.origin.via = some Via.meta := by
  intro pds
  induction pds with
  | nil => intro res0 pack ret resR packR h; simp [metaRetryLoop] at h
  | cons pd rest ih =>
    intro res0 pack ret resR packR h
    unfold metaRetryLoop at h
    split at h
    · cases h
    · split at h
      · dsimp only [] at h
        split at h
        · cases h; left; rfl
        · cases h; right; exact markAsMetaDerived_via _ _ _ _
      · exact ih _ _ _ _ _ h

theorem metaRefRegistryHit_shape (r : Resolvers)
    (ref normalizedFilePart : String) (parsed : MetaRefParse) (bo : Origin)
    (sk : AuthoringKind) (msr : Option String) (parentDoc doc : ParsedYaml)
    (pack : Pack) (out : PValue × Pack)
    (h : metaRefRegistryHit r ref normalizedFilePart parsed bo sk msr
      parentDoc doc pack = some out) :
    out.1 = createPScalar (.str ref) bo ∨
      out.1.origin.via = some Via.meta := by
  unfold metaRefRegistryHit at h
  split at h
  · cases h
  · dsimp only [] at h
    split at h
    · cases h
    · rename_i heq
      cases h
      split at heq
      · exact metaRetryLoop_shape r parsed sk msr ref bo _ _ _ _ _ _ heq
      · simp at heq
    · split at h
      · cases h; left; rfl
      · split at h
        · cases h; left; rfl
        · cases h; right; exact markAsMetaDerived_via _ _ _ _

theorem resolveMetaRefF_shape (r : Resolvers) (ref : String) (pack : Pack)
    (parentDoc : ParsedYaml) (sk : AuthoringKind) (msr : Option String)
    (out : PValue × Pack)
    (h : resolveMetaRefF r ref pack parentDoc sk msr = some out) :
    out.1 = metaSkippedLiteral ref parentDoc ∨
      out.1.origin.via = some Via.meta := by
  unfold resolveMetaRefF at h
  dsimp only [] at h
  repeat' split at h
  all_goals
    first
    | exact Option.noConfusion h
    | exact metaRefRegistryHit_shape r ref _ _ _ sk msr parentDoc _ _ out h
    | exact metaRefResolveFsFound_shape r ref _ _ sk msr parentDoc _ _ out h
    | (cases h; left; rfl)
/-- C10: every result `resolveMetaRef` returns is either the meta-derived
rewrap (whose `origin.via` is `'meta'`) or exactly the skipped/failed literal
scalar, whose `origin.via` is the `'meta-skipped'` sentinel and whose
`metaSite` is absent; the sentinel lies outside the enumerated set
`{direct, meta, extends}`; the whole-scalar caller passes a
`'meta-skipped'` result through untouched (no `via='meta'` rewrap, no
`metaSite`), so `isMetaDerived` is `false` for it; and an interpolation span
whose reference comes back `'meta-skipped'` is kept verbatim as
`${...}` in the output string without setting `didResolveAny`. -/
theorem spec2proof_c10 :
    (∀ (r : Resolvers) (ref : String) (pack : Pack) (parentDoc : ParsedYaml)
        (sk : AuthoringKind) (msr : Option String) (out : PValue × Pack),
      resolveMetaRefF r ref pack parentDoc sk msr = some out →
      out.1 = metaSkippedLiteral ref parentDoc ∨
        out.1.origin.via = some Via.meta) ∧
    (∀ (ref : String) (parentDoc : ParsedYaml),
      (metaSkippedLiteral ref parentDoc).origin.via =
          some Via.metaSkipped ∧
      (metaSkippedLiteral ref parentDoc).origin.metaSite = none ∧
      isMetaDerived (metaSkippedLiteral ref parentDoc) = false) ∧
    (Via.metaSkipped ≠ Via.direct ∧ Via.metaSkipped ≠ Via.meta ∧
      Via.metaSkipped ≠ Via.extendsVia) ∧
    (∀ (parentDoc : ParsedYaml) (nodeVal : JSVal) (ref : String)
        (pd2 : ParsedYaml) (pk : Pack),
      wholeScalarWrap parentDoc nodeVal
          (some (metaSkippedLiteral ref pd2, pk)) =
        some (metaSkippedLiteral ref pd2, pk)) ∧
    (∀ (r : Resolvers) (parentDoc : ParsedYaml) (content : List Char)
        (rest : List (Sum (List Char) (List Char))) (pack : Pack)
        (out : String) (did : Bool) (v : JSVal) (o : Origin) (pk : Pack),
      ¬ getMetaRefConfidence
          (if jsStartsWith (jsTrim (String.mk content)) "$" then
            jsTrim (String.mk content)
          else "$" ++ jsTrim (String.mk content)) =
          MetaRefConfidence.unlikelyRef →
      r.rmr
          (if jsStartsWith (jsTrim (String.mk content)) "$" then
            jsTrim (String.mk content)
          else "$" ++ jsTrim (String.mk content)) pack parentDoc
          AuthoringKind.scalar
          (some ("$\x7b" ++ jsTrim (String.mk content) ++ "\x7d")) =
        some (PValue.scalar v o, pk) →
      o.via = some Via.metaSkipped →
      interpChunksGo r parentDoc (Sum.inr content :: rest) pack out did =
        interpChunksGo r parentDoc rest pk
          (out ++ "$\x7b" ++ jsTrim (String.mk content) ++ "\x7d") did) ∧
    resolveValue 2 (some (sstr "$minecraft:stone")) packEmpty callerDoc
        [] 0 =
      some (metaSkippedLiteral "$minecraft:stone" callerDoc, packEmpty) := by
  refine ⟨resolveMetaRefF_shape, fun ref parentDoc => ⟨rfl, rfl, rfl⟩,
    by decide, fun parentDoc nodeVal ref pd2 pk => rfl, ?_, rfl⟩
  intro r parentDoc content rest pack out did v o pk hconf hrmr hvia
  simp only [interpChunksGo]
  rw [if_neg hconf, hrmr]
  dsimp only []
  rw [if_pos hvia]

/-- Witness for C10: the shape part applied at the skipped reference
`$minecraft:stone`, and the verbatim-keep part applied at a span whose
reference fails to resolve (missing file), both in the empty pack. -/
theorem spec2proof_c10_witness :
    (resolveMetaRefF (mkResolvers 0) "$minecraft:stone" packEmpty callerDoc
        AuthoringKind.scalar none =
      some (metaSkippedLiteral "$minecraft:stone" callerDoc, packEmpty)) ∧
    ((metaSkippedLiteral "$minecraft:stone" callerDoc, packEmpty).1 =
        metaSkippedLiteral "$minecraft:stone" callerDoc ∨
      (metaSkippedLiteral "$minecraft:stone" callerDoc,
        packEmpty).1.origin.via = some Via.meta) ∧
    interpChunksGo (mkResolvers 1) callerDoc
        (Sum.inr "missing.yml:k".data :: []) packEmpty "" false =
      interpChunksGo (mkResolvers 1) callerDoc []
        (pushDiag packEmpty
          { code := "META_REF_FILE_MISSING",
            message := "Meta file \"missing.yml\" not found.",
            severity := "error", file := "/pack/caller.yml" })
        "$\x7bmissing.yml:k\x7d" false :=
  ⟨rfl,
   spec2proof_c10.1 (mkResolvers 0) "$minecraft:stone" packEmpty callerDoc
     AuthoringKind.scalar none
     (metaSkippedLiteral "$minecraft:stone" callerDoc, packEmpty) rfl,
   spec2proof_c10.2.2.2.2.1 (mkResolvers 1) callerDoc "missing.yml:k".data
     [] packEmpty "" false (JSVal.str "$missing.yml:k")
     (metaRefBaseOrigin "$missing.yml:k" callerDoc)
     (pushDiag packEmpty
       { code := "META_REF_FILE_MISSING",
         message := "Meta file \"missing.yml\" not found.",
         severity := "error", file := "/pack/caller.yml" })
     (by decide) rfl rfl⟩

/-! ## The registry-hit reference cycle (claims C3 and C6) -/

/-- If the recursive document resolution never finishes, neither does the
registry-hit path that invoked it (it is invoked before the cycle guard). -/
theorem metaRefRegistryHit_rfd_none (r : Resolvers) (ref nfp : String)
    (parsed : MetaRefParse) (bo : Origin) (sk : AuthoringKind)
    (msr : Option String) (parentDoc doc : ParsedYaml) (pack : Pack)
    (h : r.rfd doc parsed.pathInFile pack = none) :
    metaRefRegistryHit r ref nfp parsed bo sk msr parentDoc doc pack =
      none := by
  unfold metaRefRegistryHit
  rw [h]

/-- One unfinished arc of the cycle: resolving through `File2.yml:k`. -/
theorem cyc_rfd_none_2 (j : Nat) (h : cycB j = none) :
    (mkResolvers (j + 1)).rfd file2Doc ["k"] packCycle = none := by
  have hnav : (mkResolvers (j + 1)).rfd file2Doc ["k"] packCycle =
      (match cycB j with
       | none => none
       | some (resolved, pack') => some (Except.ok resolved, pack')) := rfl
  rw [hnav, h]

/-- One unfinished arc of the cycle: resolving through `File1.yml:k`. -/
theorem cyc_rfd_none_1 (j : Nat) (h : cycA j = none) :
    (mkResolvers (j + 1)).rfd file1Doc ["k"] packCycle = none := by
  have hnav : (mkResolvers (j + 1)).rfd file1Doc ["k"] packCycle =
      (match cycA j with
       | none => none
       | some (resolved, pack') => some (Except.ok resolved, pack')) := rfl
  rw [hnav, h]

/-- The meta-reference `$File2.yml:k` made from `File1.yml` never finishes
once its recursive arc does not. -/
theorem rmr_none_2 (j : Nat) (h : cycB j = none) :
    (mkResolvers (j + 2)).rmr "$File2.yml:k" packCycle file1Doc
      AuthoringKind.scalar none = none := by
  have h1 : (mkResolvers (j + 2)).rmr "$File2.yml:k" packCycle file1Doc
      AuthoringKind.scalar none =
      metaRefRegistryHit (mkResolvers (j + 1)) "$File2.yml:k" "File2.yml"
        (cycParse "File2.yml") (metaRefBaseOrigin "$File2.yml:k" file1Doc)
        AuthoringKind.scalar none file1Doc file2Doc packCycle := rfl
  rw [h1]
  exact metaRefRegistryHit_rfd_none _ _ _ _ _ _ _ _ _ _ (cyc_rfd_none_2 j h)

/-- The meta-reference `$File1.yml:k` made from `File2.yml` never finishes
once its recursive arc does not. -/
theorem rmr_none_1 (j : Nat) (h : cycA j = none) :
    (mkResolvers (j + 2)).rmr "$File1.yml:k" packCycle file2Doc
      AuthoringKind.scalar none = none := by
  have h1 : (mkResolvers (j + 2)).rmr "$File1.yml:k" packCycle file2Doc
      AuthoringKind.scalar none =
      metaRefRegistryHit (mkResolvers (j + 1)) "$File1.yml:k" "File1.yml"
        (cycParse "File1.yml") (metaRefBaseOrigin "$File1.yml:k" file2Doc)
        AuthoringKind.scalar none file2Doc file1Doc packCycle := rfl
  rw [h1]
  exact metaRefRegistryHit_rfd_none _ _ _ _ _ _ _ _ _ _ (cyc_rfd_none_1 j h)

/-- Three fuel levels unwind one whole-scalar arc of the cycle. -/
theorem cycA_step (j : Nat) (h : cycB j = none) : cycA (j + 3) = none := by
  have h2 : cycA (j + 3) =
      wholeScalarWrap file1Doc (JSVal.str "$File2.yml:k")
        ((mkResolvers (j + 2)).rmr "$File2.yml:k" packCycle file1Doc
          AuthoringKind.scalar none) := rfl
  rw [h2, rmr_none_2 j h]
  rfl

/-- Three fuel levels unwind one whole-scalar arc of the cycle. -/
theorem cycB_step (j : Nat) (h : cycA j = none) : cycB (j + 3) = none := by
  have h2 : cycB (j + 3) =
      wholeScalarWrap file2Doc (JSVal.str "$File1.yml:k")
        ((mkResolvers (j + 2)).rmr "$File1.yml:k" packCycle file2Doc
          AuthoringKind.scalar none) := rfl
  rw [h2, rmr_none_1 j h]
  rfl

/-- The registry-path cycle `File1.yml:k → File2.yml:k → File1.yml:k` never
finishes at any fuel: the embedded computation diverges, because
`resolveFromDoc` recurses into the located target before the cycle key is
checked or pushed. -/
theorem cyc_none (n : Nat) : cycA n = none ∧ cycB n = none := by
  induction n using Nat.strong_induction_on with
  | _ n ih =>
    match n with
    | 0 => exact ⟨rfl, rfl⟩
    | 1 => exact ⟨rfl, rfl⟩
    | 2 => exact ⟨rfl, rfl⟩
    | j + 3 =>
      have hj := ih j (by omega)
      exact ⟨cycA_step j hj.2, cycB_step j hj.1⟩

/-- The divergence seen from `resolveMetaRef` itself. -/
theorem rmr_cyc_none (fuel : Nat) :
    resolveMetaRef fuel "$File2.yml:k" packCycle file1Doc
      AuthoringKind.scalar none = none := by
  match fuel with
  | 0 => rfl
  | 1 => rfl
  | m + 2 => exact rmr_none_2 m (cyc_none m).2

/-- C3 (code evidence): the cycle key of a registry-located target is checked
and pushed only *after* `resolveFromDoc` has already recursed into the
target.  Finite evidence: with the key `/pack/Target.yml:k` already on the
in-flight stack, resolving `$Target.yml:k` first performs the recursive
resolution (emitting `META_REF_FILE_MISSING` for the target's own dangling
inner reference, against the target's file) and only then fires the cycle
guard — the diagnostics arrive in that order.  Divergence: for the genuine
cycle `File1.yml:k → File2.yml:k → File1.yml:k` the embedded resolution
returns `none` at every fuel, i.e. the unguarded recursion never terminates,
so no `META_REF_CYCLE` is ever produced for it. -/
theorem spec2proof_c3 :
    ((resolveMetaRef 8 "$Target.yml:k" packInFlight callerDoc
        AuthoringKind.scalar none).map
      (fun p => (toJS p.1, p.1.origin.via,
        p.2.diagnostics.map (fun d => (d.code, d.file)),
        p.2.metaRefStack)) =
      some (JsTree.prim (JSVal.str "$Target.yml:k"), some Via.metaSkipped,
        [("META_REF_FILE_MISSING", "/pack/Target.yml"),
         ("META_REF_CYCLE", "/pack/caller.yml")],
        ["/pack/Target.yml:k"])) ∧
    ∀ fuel, resolveValue fuel (some (sstr "$File2.yml:k")) packCycle
        file1Doc [] 0 = none :=
  ⟨rfl, fun fuel => (cyc_none fuel).1⟩

/-- C6: on every path on which `resolveMetaRef` does return, the result is
either the meta-derived rewrap or exactly a scalar carrying the original
reference text (never an exception value — the embedding has no throwing
path); the structural and security failures (`absolute path, traversal,
cycle, ambiguity`) carry severity `error` while the judgement calls
(multiple colons, probably-literal) carry `warning`.  But the contract
"returns a PValue for every input reference and pack state" fails: on the
registry-located cycle `$File2.yml:k` the computation returns `none` at
every fuel — the real function recurses forever instead of returning. -/
theorem spec2proof_c6 :
    (∀ (r : Resolvers) (ref : String) (pack : Pack) (parentDoc : ParsedYaml)
        (sk : AuthoringKind) (msr : Option String) (out : PValue × Pack),
      resolveMetaRefF r ref pack parentDoc sk msr = some out →
      out.1 = metaSkippedLiteral ref parentDoc ∨
        out.1.origin.via = some Via.meta) ∧
    (∀ (a b : String), (absPathDiag a b).severity = "error" ∧
      (traversalDiag a b).severity = "error" ∧
      (cycleDiag a b).severity = "error" ∧
      (multiColonDiag a b).severity = "warning" ∧
      (probablyLiteralDiag a b).severity = "warning") ∧
    (∀ (pack : Pack) (res : RegistryFindResult) (a b : String),
      (registryAmbiguousDiag pack res a b).severity = "error") ∧
    (∀ (a b : String) (c : List String),
      (fsAmbiguousDiag a c b).severity = "error") ∧
    ∀ fuel, resolveMetaRef fuel "$File2.yml:k" packCycle file1Doc
        AuthoringKind.scalar none = none :=
  ⟨resolveMetaRefF_shape,
   fun _ _ => ⟨rfl, rfl, rfl, rfl, rfl⟩,
   fun _ _ _ _ => rfl,
   fun _ _ _ => rfl,
   rmr_cyc_none⟩

/-- Witness for C6: the shape part applied at a missing-file reference in
the empty pack — the returned value is the literal scalar of the original
text. -/
theorem spec2proof_c6_witness :
    resolveMetaRefF (mkResolvers 0) "$x.yml:a" packEmpty callerDoc
        AuthoringKind.scalar none =
      some (metaSkippedLiteral "$x.yml:a" callerDoc,
        pushDiag packEmpty
          { code := "META_REF_FILE_MISSING",
            message := "Meta file \"x.yml\" not found.",
            severity := "error", file := "/pack/caller.yml" }) ∧
    ((metaSkippedLiteral "$x.yml:a" callerDoc,
        pushDiag packEmpty
          { code := "META_REF_FILE_MISSING",
            message := "Meta file \"x.yml\" not found.",
            severity := "error", file := "/pack/caller.yml" }).1 =
        metaSkippedLiteral "$x.yml:a" callerDoc ∨
      (metaSkippedLiteral "$x.yml:a" callerDoc,
        pushDiag packEmpty
          { code := "META_REF_FILE_MISSING",
            message := "Meta file \"x.yml\" not found.",
            severity := "error", file := "/pack/caller.yml" }).1.origin.via =
        some Via.meta) :=
  ⟨rfl,
   spec2proof_c6.1 (mkResolvers 0) "$x.yml:a" packEmpty callerDoc
     AuthoringKind.scalar none
     (metaSkippedLiteral "$x.yml:a" callerDoc,
       pushDiag packEmpty
         { code := "META_REF_FILE_MISSING",
           message := "Meta file \"x.yml\" not found.",
           severity := "error", file := "/pack/caller.yml" }) rfl⟩

/-- C7: registry lookup walks the four tiers — exact under the pack root,
exact under each include directory, suffix under the pack root, suffix under
include directories — in that order; an empty tier is skipped, the first
non-empty tier wins with ambiguity exactly when it holds more than one
distinct document; for a non-`meta.yml` file part `findInRegistry` is
exactly this tier loop; an ambiguous registry result makes `resolveMetaRef`
emit `META_REF_AMBIGUOUS` and return the literal reference text instead of
picking a match; and on the two suffix-matching fixture documents the exact
tier picks `p1/x.yml` uniquely while the bare `x.yml` reference is reported
ambiguous. -/
theorem spec2proof_c7 :
    (∀ (allDocs : List ParsedYaml) (ns : String) (exact : Bool)
        (roots : List String) (rest : List (Bool × List String)),
      dedupTier (tierMatches allDocs ns exact roots) = [] →
      findTiersLoop allDocs ns ((exact, roots) :: rest) =
        findTiersLoop allDocs ns rest) ∧
    (∀ (allDocs : List ParsedYaml) (ns : String) (exact : Bool)
        (roots : List String) (rest : List (Bool × List String)),
      ¬ (dedupTier (tierMatches allDocs ns exact roots)).isEmpty →
      findTiersLoop allDocs ns ((exact, roots) :: rest) =
        { docs := dedupTier (tierMatches allDocs ns exact roots),
          ambiguous :=
            (dedupTier (tierMatches allDocs ns exact roots)).length > 1 }) ∧
    (∀ pack : Pack, lookupTiers pack =
      [(true, [pack.rootPath]), (true, pack.includePaths),
       (false, [pack.rootPath]), (false, pack.includePaths)]) ∧
    (∀ (filePart : String) (pack : Pack) (cfp : Option String),
      jsToLower filePart ≠ "meta.yml" →
      jsToLower filePart ≠ "meta.yaml" →
      findInRegistry filePart pack cfp =
        findTiersLoop (jsValues pack.allDocs)
          (jsToLower (jsReplaceChar filePart '\\' '/')) (lookupTiers pack)) ∧
    (∀ (r : Resolvers) (ref : String) (pack : Pack) (parentDoc : ParsedYaml)
        (sk : AuthoringKind) (msr : Option String) (parsed : MetaRefParse),
      getMetaRefConfidence ref ≠ MetaRefConfidence.unlikelyRef →
      parseMetaRefCandidate ref = some parsed →
      ¬ (parsed.looksWindowsAbs ∨ pathIsAbsolute parsed.filePart ∨
          jsStartsWith parsed.filePart "\\\\" ∨
          jsStartsWith parsed.filePart "//") →
      parsed.hasMultipleColons = false →
      hasDirectoryTraversal parsed.filePart = false →
      (attemptRegistryResolution (normalizeFilePath parsed.filePart) pack
        (some parentDoc.filePath)).ambiguous = true →
      resolveMetaRefF r ref pack parentDoc sk msr =
        some (metaSkippedLiteral ref parentDoc,
          pushDiag pack
            (registryAmbiguousDiag pack
              (attemptRegistryResolution (normalizeFilePath parsed.filePart)
                pack (some parentDoc.filePath))
              parsed.filePart parentDoc.filePath))) ∧
    findInRegistry "p1/x.yml" packAmb none =
      { docs := [ambDoc1], ambiguous := false } ∧
    findInRegistry "x.yml" packAmb none =
      { docs := [ambDoc1, ambDoc2], ambiguous := true } ∧
    resolveMetaRef 2 "$x.yml:k" packAmb callerDoc AuthoringKind.scalar none =
      some (metaSkippedLiteral "$x.yml:k" callerDoc,
        pushDiag packAmb
          (registryAmbiguousDiag packAmb
            { docs := [ambDoc1, ambDoc2], ambiguous := true }
            "x.yml" "/pack/caller.yml")) := by
  refine ⟨?_, ?_, fun pack => rfl, ?_, ?_, rfl, rfl, rfl⟩
  · intro allDocs ns exact roots rest h
    simp [findTiersLoop, h]
  · intro allDocs ns exact roots rest h
    simp only [findTiersLoop]
    rw [if_pos h]
  · intro filePart pack cfp h1 h2
    unfold findInRegistry
    cases cfp with
    | none => rfl
    | some c =>
      dsimp only []
      rw [if_neg (fun hc => hc.2.elim h1 h2)]
  · intro r ref pack parentDoc sk msr parsed hconf hparse habs hmc htrav hamb
    simp only [resolveMetaRefF, hparse]
    rw [if_neg hconf, if_neg habs,
      if_neg (fun hh : parsed.hasMultipleColons = true =>
        by rw [hmc] at hh; exact Bool.noConfusion hh),
      if_neg (fun hh : hasDirectoryTraversal parsed.filePart = true =>
        by rw [htrav] at hh; exact Bool.noConfusion hh),
      if_pos hamb]

/-- Witness for C7: the ambiguity equation applied at the bare reference
`$x.yml:k` over the two suffix-matching fixture documents. -/
theorem spec2proof_c7_witness :
    resolveMetaRefF (mkResolvers 0) "$x.yml:k" packAmb callerDoc
        AuthoringKind.scalar none =
      some (metaSkippedLiteral "$x.yml:k" callerDoc,
        pushDiag packAmb
          (registryAmbiguousDiag packAmb
            (attemptRegistryResolution (normalizeFilePath "x.yml") packAmb
              (some "/pack/caller.yml"))
            "x.yml" "/pack/caller.yml")) :=
  spec2proof_c7.2.2.2.2.1 (mkResolvers 0) "$x.yml:k" packAmb callerDoc
    AuthoringKind.scalar none
    { filePart := "x.yml", pathInFile := ["k"], hasColon := true,
      looksWindowsAbs := false, hasMultipleColons := false }
    (by decide) rfl (by decide) rfl rfl rfl

/-- C8: the MetaString branch of `resolveValue`.  If the interpolation loop
reports that no span resolved, the original scalar node value comes back
under the unchanged origin (value and type preserved).  If at least one span
resolved, the assembled string has its newlines collapsed to spaces and is
trimmed, and the final text is re-checked for numeric-literal form with
underscore stripping; the scalar branch of `resolveValue` enters this
interpolation path exactly when the raw text contains a span opener.
Concretely, `$a.yml:one_$a.yml:zero` assembles to
`1_0` and yields the number `10`; `$a.yml:one` followed by a
newline collapses and trims to the number `1`; the plain scalar `1_000_000`
yields `1000000`; and `$minecraft:stone`, whose only span is
skipped, is returned unchanged with its direct origin. -/
theorem spec2proof_c8 :
    (∀ (r : Resolvers) (pack : Pack) (parentDoc : ParsedYaml)
        (fieldPath : List String) (ad : Nat) (s : String),
      ad ≤ 50 → jsIncludes s "$\x7b" = true →
      resolveValueF r (some (sstr s)) pack parentDoc fieldPath ad =
        resolveInterpolatedScalar r parentDoc
          { file := parentDoc.filePath, via := some Via.direct,
            authoring := authoringOf (sstr s) } (JSVal.str s) s pack) ∧
    (∀ (r : Resolvers) (parentDoc : ParsedYaml) (origin : Origin)
        (nodeVal : JSVal) (val : String) (pack : Pack) (out : String)
        (pack' : Pack),
      interpChunksGo r parentDoc (scanMetaSpans (val.length + 1) val.data)
          pack "" false = some (out, false, pack') →
      resolveInterpolatedScalar r parentDoc origin nodeVal val pack =
        some (createPScalar nodeVal origin, pack')) ∧
    (∀ (r : Resolvers) (parentDoc : ParsedYaml) (origin : Origin)
        (nodeVal : JSVal) (val : String) (pack : Pack) (out : String)
        (pack' : Pack),
      interpChunksGo r parentDoc (scanMetaSpans (val.length + 1) val.data)
          pack "" false = some (out, true, pack') →
      numericUnderscoreLit (jsTrim (collapseNewlines out)) = false →
      resolveInterpolatedScalar r parentDoc origin nodeVal val pack =
        some (createPScalar (JSVal.str (jsTrim (collapseNewlines out)))
          { origin with
            via := some Via.meta
            metaSite := some { file := parentDoc.filePath,
                               kind := AuthoringKind.scalar,
                               raw := some (jsString nodeVal) }
            authoring := some { kind := AuthoringKind.scalar,
                                scalarType := some ScalarType.string,
                                raw := some (jsTrim (collapseNewlines out)) } },
          pack')) ∧
    (∀ (r : Resolvers) (parentDoc : ParsedYaml) (origin : Origin)
        (nodeVal : JSVal) (val : String) (pack : Pack) (out : String)
        (pack' : Pack) (n : JsNumber),
      interpChunksGo r parentDoc (scanMetaSpans (val.length + 1) val.data)
          pack "" false = some (out, true, pack') →
      numericUnderscoreLit (jsTrim (collapseNewlines out)) = true →
      jsNumberParse (stripUnderscores (jsTrim (collapseNewlines out))) =
        some n →
      resolveInterpolatedScalar r parentDoc origin nodeVal val pack =
        some (createPScalar (JSVal.num n)
          { origin with
            via := some Via.meta
            metaSite := some { file := parentDoc.filePath,
                               kind := AuthoringKind.scalar,
                               raw := some (jsString nodeVal) }
            authoring := some { kind := AuthoringKind.scalar,
                                scalarType := some ScalarType.number,
                                raw := some (jsTrim (collapseNewlines out)) } },
          pack')) ∧
    resolveValue 6 (some (sstr "$\x7ba.yml:one\x7d_$\x7ba.yml:zero\x7d"))
        packInterp callerDoc [] 0 =
      some (createPScalar (JSVal.num ⟨10, 0⟩)
        { file := "/pack/caller.yml", via := some Via.meta,
          metaSite := some { file := "/pack/caller.yml",
                             kind := AuthoringKind.scalar,
                             raw := some "$\x7ba.yml:one\x7d_$\x7ba.yml:zero\x7d" },
          authoring := some { kind := AuthoringKind.scalar,
                              scalarType := some ScalarType.number,
                              raw := some "1_0" } }, packInterp) ∧
    resolveValue 6 (some (sstr "$\x7ba.yml:one\x7d\n")) packInterp callerDoc
        [] 0 =
      some (createPScalar (JSVal.num ⟨1, 0⟩)
        { file := "/pack/caller.yml", via := some Via.meta,
          metaSite := some { file := "/pack/caller.yml",
                             kind := AuthoringKind.scalar,
                             raw := some "$\x7ba.yml:one\x7d\n" },
          authoring := some { kind := AuthoringKind.scalar,
                              scalarType := some ScalarType.number,
                              raw := some "1" } }, packInterp) ∧
    resolveValue 1 (some (sstr "1_000_000")) packEmpty callerDoc [] 0 =
      some (createPScalar (JSVal.num ⟨1000000, 0⟩)
        { file := "/pack/caller.yml", via := some Via.direct,
          authoring := some { kind := AuthoringKind.scalar,
                              scalarType := some ScalarType.string,
                              raw := some "1_000_000" } }, packEmpty) ∧
    resolveValue 2 (some (sstr "$\x7bminecraft:stone\x7d")) packInterp
        callerDoc [] 0 =
      some (createPScalar (JSVal.str "$\x7bminecraft:stone\x7d")
        { file := "/pack/caller.yml", via := some Via.direct,
          authoring := some { kind := AuthoringKind.scalar,
                              scalarType := some ScalarType.string,
                              raw := some "$\x7bminecraft:stone\x7d" } },
        packInterp) := by
  refine ⟨?_, ?_, ?_, ?_, ?_, ?_, rfl, rfl⟩
  · intro r pack parentDoc fieldPath ad s had hinc
    have hale : ¬ ad > 50 := by omega
    simp only [resolveValueF, sstr]
    rw [if_neg hale]
    dsimp only [jsString]
    rw [if_pos hinc]
  · intro r parentDoc origin nodeVal val pack out pack' h
    simp only [resolveInterpolatedScalar]
    rw [h]
    rfl
  · intro r parentDoc origin nodeVal val pack out pack' h hnum
    simp only [resolveInterpolatedScalar]
    rw [h]
    dsimp only []
    rw [hnum]
    rfl
  · intro r parentDoc origin nodeVal val pack out pack' n h hnum hparse
    simp only [resolveInterpolatedScalar]
    rw [h]
    dsimp only []
    rw [hnum]
    rw [hparse]
    rfl
  · have hlink : resolveValue 6
        (some (sstr "$\x7ba.yml:one\x7d_$\x7ba.yml:zero\x7d")) packInterp
        callerDoc [] 0 =
        resolveInterpolatedScalar (mkResolvers 5) callerDoc
          { file := "/pack/caller.yml", via := some Via.direct,
            authoring :=
              authoringOf (sstr "$\x7ba.yml:one\x7d_$\x7ba.yml:zero\x7d") }
          (JSVal.str "$\x7ba.yml:one\x7d_$\x7ba.yml:zero\x7d")
          "$\x7ba.yml:one\x7d_$\x7ba.yml:zero\x7d" packInterp := rfl
    have hgo : interpChunksGo (mkResolvers 5) callerDoc
        (scanMetaSpans
          ("$\x7ba.yml:one\x7d_$\x7ba.yml:zero\x7d".length + 1)
          "$\x7ba.yml:one\x7d_$\x7ba.yml:zero\x7d".data)
        packInterp "" false = some ("1_0", true, packInterp) := rfl
    rw [hlink]
    simp only [resolveInterpolatedScalar]
    rw [hgo]
    rfl
  · have hlink : resolveValue 6 (some (sstr "$\x7ba.yml:one\x7d\n"))
        packInterp callerDoc [] 0 =
        resolveInterpolatedScalar (mkResolvers 5) callerDoc
          { file := "/pack/caller.yml", via := some Via.direct,
            authoring := authoringOf (sstr "$\x7ba.yml:one\x7d\n") }
          (JSVal.str "$\x7ba.yml:one\x7d\n") "$\x7ba.yml:one\x7d\n"
          packInterp := rfl
    have hgo : interpChunksGo (mkResolvers 5) callerDoc
        (scanMetaSpans ("$\x7ba.yml:one\x7d\n".length + 1)
          "$\x7ba.yml:one\x7d\n".data)
        packInterp "" false = some ("1\n", true, packInterp) := rfl
    rw [hlink]
    simp only [resolveInterpolatedScalar]
    rw [hgo]
    rfl

/-- Witness for C8: the none-resolved part applied at the all-skipped scalar
`$minecraft:stone` — the original value comes back unchanged. -/
theorem spec2proof_c8_witness :
    resolveInterpolatedScalar (mkResolvers 1) callerDoc
        { file := "/pack/caller.yml" }
        (JSVal.str "$\x7bminecraft:stone\x7d") "$\x7bminecraft:stone\x7d"
        packInterp =
      some (createPScalar (JSVal.str "$\x7bminecraft:stone\x7d")
        { file := "/pack/caller.yml" }, packInterp) :=
  spec2proof_c8.2.1 (mkResolvers 1) callerDoc { file := "/pack/caller.yml" }
    (JSVal.str "$\x7bminecraft:stone\x7d") "$\x7bminecraft:stone\x7d"
    packInterp "$\x7bminecraft:stone\x7d" packInterp rfl

end TerraLint
